import Mathlib

/-!
Verification development for the Flockwave fleet-coordination server
(`src/flockwave/server/app.py`).

The Python code is shallowly embedded: every stateful method becomes a pure
function with explicit state passing, and Python exceptions become an
`Except` result.  Definitions embedding code under `src/` follow the source
line by line; collaborator classes whose source is not part of this
repository snapshot (the response ledger, the command execution manager and
the device tree subscription manager) are modelled from the specification,
as indicated in their doc comments.
-/

set_option maxRecDepth 4000
set_option linter.unnecessarySeqFocus false

namespace Flockwave

/-- Modelled from the spec: the taxonomy of Python exception classes that
`dispatch_to_uavs` can observe from a driver (`errors.py` and the Python
builtins are not part of the source snapshot).  `NotImplementedError` and
`NotSupportedError` are subclasses of `RuntimeError` in Python; `typeError`
and `otherError` stand for exception classes outside `RuntimeError`. -/
inductive PyExc where
  | notImplementedError : PyExc
  | notSupportedError (msg : String) : PyExc
  | runtimeError (msg : String) : PyExc
  | typeError (msg : String) : PyExc
  | otherError (cls msg : String) : PyExc
deriving DecidableEq

/-- Whether the exception is an instance of the Python class `RuntimeError`
(this includes `NotImplementedError` and `NotSupportedError`). -/
def PyExc.isRuntimeError : PyExc → Bool
  | .notImplementedError => true
  | .notSupportedError _ => true
  | .runtimeError _ => true
  | _ => false

/-- Whether the exception is an instance of the Python class `TypeError`. -/
def PyExc.isTypeError : PyExc → Bool
  | .typeError _ => true
  | _ => false

/-- Association-list lookup used to read the mapping parts of a ledger. -/
def lookupA {κ α : Type} [DecidableEq κ] : List (κ × α) → κ → Option α
  | [], _ => none
  | (k0, v) :: rest, k => if k0 = k then some v else lookupA rest k

/-- Insert-or-replace on an association list: the embedding of a Python
dictionary assignment `d[k] = v`. -/
def upsert {κ α : Type} [DecidableEq κ] : List (κ × α) → κ → α → List (κ × α)
  | [], k, v => [(k, v)]
  | (k0, v0) :: rest, k, v =>
      if k0 = k then (k0, v) :: rest else (k0, v0) :: upsert rest k v

/-- Append `v` to the list stored under key `k`, creating the entry when it
is absent: the embedding of the Python `defaultdict(list)` idiom
`d[k].append(v)` used by `_sort_uavs_by_drivers` and
`_on_command_execution_timeout`. -/
def multiMapAdd {α : Type} : List (String × List α) → String → α → List (String × List α)
  | [], k, v => [(k, [v])]
  | (k0, vs) :: rest, k, v =>
      if k0 = k then (k0, vs ++ [v]) :: rest else (k0, vs) :: multiMapAdd rest k v

/-- Read the list stored under key `k` in a multimap (empty when absent). -/
def mmGet {α : Type} : List (String × List α) → String → List α
  | [], _ => []
  | (k0, vs) :: rest, k => if k0 = k then vs else mmGet rest k

/-- Modelled from the spec: the response ledger of a batch operation
(`FlockwaveResponse` in `model/messages.py`, not part of the source
snapshot).  Wire shape from the spec: `success` is a list of ids, `failure`
maps each id to a reason string, `receipt` maps each id to a receipt view
(represented here by the receipt id).  The key type is a parameter because
UAV operations key the ledger by UAV id and device operations by path. -/
structure FlockwaveResponse (κ : Type) where
  success : List κ
  failure : List (κ × String)
  receipt : List (κ × String)
deriving DecidableEq

/-- The empty ledger of a freshly created response. -/
def FlockwaveResponse.empty {κ : Type} : FlockwaveResponse κ := ⟨[], [], []⟩

/-- Modelled from the spec: `add_success` appends the id to the `success`
list of the ledger. -/
def FlockwaveResponse.addSuccess {κ : Type} (r : FlockwaveResponse κ) (k : κ) :
    FlockwaveResponse κ :=
  { r with success := r.success ++ [k] }

/-- Modelled from the spec: `add_failure` stores the reason under the id in
the `failure` mapping of the ledger. -/
def FlockwaveResponse.addFailure {κ : Type} [DecidableEq κ] (r : FlockwaveResponse κ)
    (k : κ) (reason : String) : FlockwaveResponse κ :=
  { r with failure := upsert r.failure k reason }

/-- Modelled from the spec: `add_receipt` stores the receipt under the id in
the `receipt` mapping of the ledger. -/
def FlockwaveResponse.addReceipt {κ : Type} [DecidableEq κ] (r : FlockwaveResponse κ)
    (k : κ) (receiptId : String) : FlockwaveResponse κ :=
  { r with receipt := upsert r.receipt k receiptId }

/-- The concatenation of the three outcome key lists of a ledger; the claim
that every requested id has exactly one outcome is stated as this list
having no duplicates together with its members being the requested ids. -/
def ledgerKeys {κ : Type} (r : FlockwaveResponse κ) : List κ :=
  r.success ++ r.failure.map Prod.fst ++ r.receipt.map Prod.fst

/-- The state of a command receipt (spec section 4.2). -/
inductive ReceiptState where
  | pending : ReceiptState
  | finished : ReceiptState
  | timedOut : ReceiptState
  | cancelled : ReceiptState
deriving DecidableEq

/-- Modelled from the spec: `CommandExecutionStatus` (`commands.py` is not
part of the source snapshot).  `clientsToNotify` is the set of client ids to
notify on the terminal transition, `clientNotified` the flag set by
`mark_as_clients_notified` once the initial synchronous acknowledgment was
sent, and `response` the optional payload stored by `finish`. -/
structure CommandExecutionStatus where
  id : String
  clientsToNotify : List String
  clientNotified : Bool
  state : ReceiptState
  response : Option String
deriving DecidableEq

/-- Insert a client id into a notification set unless already present. -/
def pushClient (cs : List String) (c : String) : List String :=
  if c ∈ cs then cs else cs ++ [c]

/-- Modelled from the spec: `add_client_to_notify` registers one more client
on the receipt with the given id (receipts are aliased into the command
execution manager in Python, so the update is performed by receipt id on the
manager state). -/
def addClientToNotify (mgr : List CommandExecutionStatus) (rid c : String) :
    List CommandExecutionStatus :=
  mgr.map fun s =>
    if s.id = rid then { s with clientsToNotify := pushClient s.clientsToNotify c } else s

/-- Modelled from the spec: `mark_as_clients_notified` records on the receipt
that the initial synchronous acknowledgment has been sent, so the later
terminal notification does not double-notify. -/
def markAsClientsNotified (mgr : List CommandExecutionStatus) (rid : String) :
    List CommandExecutionStatus :=
  mgr.map fun s => if s.id = rid then { s with clientNotified := true } else s

/-- Modelled from the spec: `cancel` transitions the receipt with the given
id to `cancelled` when it is still `pending` and is a no-op on receipts that
already reached a terminal state. -/
def cancelReceipt (mgr : List CommandExecutionStatus) (rid : String) :
    List CommandExecutionStatus :=
  mgr.map fun s =>
    if s.id = rid then
      (if s.state = ReceiptState.pending then { s with state := ReceiptState.cancelled } else s)
    else s

/-- A UAV as seen by the dispatcher: an id, the id of its unique owning
driver, and its serializable status view. -/
structure UAV where
  id : String
  driver : String
  status : String
deriving DecidableEq

/-- The per-vehicle outcome value a driver returns from a capability call:
the Python singleton `True`, a `CommandExecutionStatus` receipt (identified
by its id), or any other value, used verbatim as a failure reason. -/
inductive Outcome where
  | trueVal : Outcome
  | receiptVal (receiptId : String) : Outcome
  | otherVal (reason : String) : Outcome
deriving DecidableEq

/-- The observable behavior of one driver object: `lookup` is the result of
`getattr` for a capability name (`none` means the attribute exists), `call`
the result of invoking the capability with a vehicle list and the extra
message parameters: either a per-vehicle outcome mapping or a raised
exception. -/
structure DriverBehavior where
  lookup : String → Option PyExc
  call : List UAV → List (String × String) → Except PyExc (List (UAV × Outcome))

/-- The collaborators `dispatch_to_uavs` reads: the UAV registry (a registry
exposes find-by-id, modelled as a list searched by id) and the driver objects
(one behavior per driver id; every UAV names its owning driver). -/
structure DispatchEnv where
  uavRegistry : List UAV
  behavior : String → DriverBehavior

/-- `registry.find_by_id` for the UAV registry: the first UAV whose id
matches, `none` standing for the `KeyError` of a failed lookup. -/
def findU (env : DispatchEnv) (uavId : String) : Option UAV :=
  env.uavRegistry.find? fun u => u.id = uavId

/-- `_find_uav_by_id`: looks the id up in the UAV registry and registers a
failure with reason "No such UAV" in the response when it is absent
(`_find_in_registry`, app.py lines 639-679). -/
def findUAVById (env : DispatchEnv) (uavId : String) (resp : FlockwaveResponse String) :
    Option UAV × FlockwaveResponse String :=
  match findU env uavId with
  | some u => (some u, resp)
  | none => (none, resp.addFailure uavId "No such UAV")

/-- The id loop of `_sort_uavs_by_drivers`: resolve each id in turn,
grouping found UAVs by driver and accumulating lookup failures. -/
def sortGo (env : DispatchEnv) :
    List String → List (String × List UAV) × FlockwaveResponse String →
      List (String × List UAV) × FlockwaveResponse String
  | [], acc => acc
  | uavId :: rest, acc =>
      match findUAVById env uavId acc.2 with
      | (some u, r) => sortGo env rest (multiMapAdd acc.1 u.driver u, r)
      | (none, r) => sortGo env rest (acc.1, r)

/-- `_sort_uavs_by_drivers` (app.py lines 763-781): resolves each id through
`_find_uav_by_id` and groups the found UAVs by their driver with the
`defaultdict(list)` idiom; lookup failures are recorded in the response. -/
def sortUAVsByDrivers (env : DispatchEnv) (uavIds : List String)
    (resp : FlockwaveResponse String) :
    List (String × List UAV) × FlockwaveResponse String :=
  sortGo env uavIds ([], resp)

/-- The static operation-name table of `dispatch_to_uavs` (app.py lines
404-408): message type to driver capability name. -/
def methodNameFor : String → Option String
  | "CMD-REQ" => some "send_command"
  | "UAV-LAND" => some "send_landing_signal"
  | "UAV-TAKEOFF" => some "send_takeoff_signal"
  | _ => none

/-- The outcome of `getattr(driver, method_name)` in `dispatch_to_uavs`:
passing `None` as the attribute name raises `TypeError`, otherwise the
driver decides; `none` means the method was found. -/
def lookupExcOf (env : DispatchEnv) (mname : Option String) (d : String) : Option PyExc :=
  match mname with
  | none => some (PyExc.typeError "attribute name must be string")
  | some name => (env.behavior d).lookup name

/-- The accumulated effect of one driver group inside `dispatch_to_uavs`:
the ledger, the command execution manager state, and the log of unexpected
errors (`log.exception`). -/
structure DispatchState where
  resp : FlockwaveResponse String
  mgr : List CommandExecutionStatus
  log : List String
deriving DecidableEq

/-- Record the same failure reason for every UAV of a list in turn. -/
def addFailures : List UAV → String → FlockwaveResponse String → FlockwaveResponse String
  | [], _, r => r
  | u :: rest, reason, r => addFailures rest reason (r.addFailure u.id reason)

/-- The `common_error` loop of `dispatch_to_uavs` (app.py lines 433-435):
record the same failure reason for every UAV of the group. -/
def addGroupFailure (st : DispatchState) (us : List UAV) (reason : String) : DispatchState :=
  { st with resp := addFailures us reason st.resp }

/-- The per-vehicle result interpretation of `dispatch_to_uavs` (app.py
lines 437-445): `True` is a ledger success; a `CommandExecutionStatus` is a
ledger receipt entry, the sender is added to its notification set and the
receipt is marked as already acknowledged; any other value is a ledger
failure with that value as reason. -/
def interpretResult (sender : String) (st : DispatchState) (u : UAV) (r : Outcome) :
    DispatchState :=
  match r with
  | .trueVal => { st with resp := st.resp.addSuccess u.id }
  | .receiptVal rid =>
      { st with
        resp := st.resp.addReceipt u.id rid,
        mgr := markAsClientsNotified (addClientToNotify st.mgr rid sender) rid }
  | .otherVal reason => { st with resp := st.resp.addFailure u.id reason }

/-- The result-interpretation loop of `dispatch_to_uavs` (app.py lines
437-445): interpret the driver outcome of each vehicle in turn. -/
def interpLoop (sender : String) : List (UAV × Outcome) → DispatchState → DispatchState
  | [], st => st
  | (u, r) :: rest, st => interpLoop sender rest (interpretResult sender st u r)

/-- One iteration of the driver loop of `dispatch_to_uavs` (app.py lines
411-445): look the capability up (`RuntimeError` and `TypeError` caught as
"Operation not supported"), invoke it, catch `NotImplementedError`,
`NotSupportedError` and `RuntimeError` from the call, and otherwise
interpret the per-vehicle outcomes; uncaught exceptions propagate. -/
def processDriverGroup (env : DispatchEnv) (sender : String) (mname : Option String)
    (params : List (String × String)) (st : DispatchState) (d : String) (us : List UAV) :
    Except PyExc DispatchState :=
  match lookupExcOf env mname d with
  | some e =>
      if e.isRuntimeError || e.isTypeError then
        Except.ok (addGroupFailure st us "Operation not supported")
      else Except.error e
  | none =>
      match (env.behavior d).call us params with
      | .ok results => Except.ok (interpLoop sender results st)
      | .error .notImplementedError =>
          Except.ok (addGroupFailure st us "Operation not implemented")
      | .error (.notSupportedError _) =>
          Except.ok (addGroupFailure st us "Operation not supported")
      | .error (.runtimeError m) =>
          Except.ok
            { addGroupFailure st us ("Unexpected error: " ++ m) with
              log := st.log ++ [m] }
      | .error (.typeError m) => Except.error (PyExc.typeError m)
      | .error (.otherError c m) => Except.error (PyExc.otherError c m)

/-- The driver loop of `dispatch_to_uavs`: process the groups in order; a
propagating exception aborts the loop (and the whole dispatch). -/
def processGroups (env : DispatchEnv) (sender : String) (mname : Option String)
    (params : List (String × String)) :
    List (String × List UAV) → DispatchState → Except PyExc DispatchState
  | [], st => Except.ok st
  | (d, us) :: rest, st =>
      match processDriverGroup env sender mname params st d us with
      | .ok st1 => processGroups env sender mname params rest st1
      | .error e => Except.error e

/-- The message `dispatch_to_uavs` receives: its type, the target id list
and the remaining body entries (the extra parameters passed to drivers). -/
structure FlockwaveMessage where
  msgType : String
  ids : List String
  params : List (String × String)

/-- `dispatch_to_uavs` (app.py lines 372-447): create an empty response,
sort the targeted UAVs by drivers (registering "No such UAV" failures), map
the message type to a capability name and run the driver loop. -/
def dispatchToUAVs (env : DispatchEnv) (mgr0 : List CommandExecutionStatus)
    (msg : FlockwaveMessage) (sender : String) : Except PyExc DispatchState :=
  let sorted := sortUAVsByDrivers env msg.ids FlockwaveResponse.empty
  processGroups env sender (methodNameFor msg.msgType) msg.params sorted.1
    { resp := sorted.2, mgr := mgr0, log := [] }

/-- `CommandExecutionManager.find_by_id` (modelled from the spec: fails with
NotFound when the receipt is absent or already purged), as used by
`_find_command_receipt_by_id`. -/
def findReceipt (mgr : List CommandExecutionStatus) (rid : String) :
    Option CommandExecutionStatus :=
  mgr.find? fun s => s.id = rid

/-- `_find_command_receipt_by_id` (app.py lines 600-618): look the receipt up
in the command execution manager and register a "No such receipt" failure in
the response when it is absent. -/
def findCommandReceiptById (mgr : List CommandExecutionStatus) (rid : String)
    (resp : FlockwaveResponse String) :
    Option CommandExecutionStatus × FlockwaveResponse String :=
  match findReceipt mgr rid with
  | some s => (some s, resp)
  | none => (none, resp.addFailure rid "No such receipt")

/-- The observable result of `create_CMD_DEL_message_for`: the `type` field
placed in the message body, the ledger, and the updated command execution
manager state. -/
structure CMDDELResult where
  bodyType : String
  ledger : FlockwaveResponse String
  mgr : List CommandExecutionStatus
deriving DecidableEq

/-- The receipt-id loop of `create_CMD_DEL_message_for`: find each receipt
in the current manager state, cancel it and record a success, or record the
"No such receipt" failure registered by the find helper. -/
def cmdDelGo :
    List String → FlockwaveResponse String × List CommandExecutionStatus →
      FlockwaveResponse String × List CommandExecutionStatus
  | [], acc => acc
  | rid :: rest, acc =>
      match findCommandReceiptById acc.2 rid acc.1 with
      | (some entry, r) => cmdDelGo rest (r.addSuccess rid, cancelReceipt acc.2 entry.id)
      | (none, r) => cmdDelGo rest (r, acc.2)

/-- `create_CMD_DEL_message_for` (app.py lines 72-95): the body is created
with type "CMD-INF"; every receipt id found in the command execution manager
is cancelled and added as a success, ids that are not found get a
"No such receipt" failure through `_find_command_receipt_by_id`. -/
def createCMDDELMessageFor (mgr0 : List CommandExecutionStatus)
    (receiptIds : List String) : CMDDELResult :=
  let folded := cmdDelGo receiptIds (FlockwaveResponse.empty, mgr0)
  { bodyType := "CMD-INF", ledger := folded.1, mgr := folded.2 }

/-- One outgoing CMD-TIMEOUT notification: the client it is unicast to and
the receipt ids carried in its body. -/
structure CMDTIMEOUTMessage where
  toClient : String
  ids : List String
deriving DecidableEq

/-- The grouping step of `_on_command_execution_timeout` (app.py lines
747-751): for every timed-out receipt and every client in its
`clients_to_notify`, append the receipt id to that client entry of a
`defaultdict(list)`. -/
def receiptIdsByClients (statuses : List CommandExecutionStatus) :
    List (String × List String) :=
  statuses.foldl
    (fun acc status =>
      status.clientsToNotify.foldl (fun a client => multiMapAdd a client status.id) acc)
    []

/-- `_on_command_execution_timeout` (app.py lines 733-761): one CMD-TIMEOUT
message per client of the grouping, carrying the receipt ids collected for
that client. -/
def onCommandExecutionTimeout (statuses : List CommandExecutionStatus) :
    List CMDTIMEOUTMessage :=
  (receiptIdsByClients statuses).map fun p => { toClient := p.1, ids := p.2 }

/-- The body of a CMD-RESP notification: the receipt id and the response
payload. -/
structure CMDRESPMessage where
  id : String
  response : String
deriving DecidableEq

/-- `_on_command_execution_finished` (app.py lines 714-731): build one
CMD-RESP body carrying the receipt id and its response payload (the empty
string when the stored payload is `None`) and unicast it to every client in
`clients_to_notify`; the result lists the (client, message) sends. -/
def onCommandExecutionFinished (status : CommandExecutionStatus) :
    List (String × CMDRESPMessage) :=
  let message : CMDRESPMessage :=
    { id := status.id,
      response := match status.response with | some r => r | none => "" }
  status.clientsToNotify.map fun clientId => (clientId, message)

/-- The observable content of one UAV-INF message: the per-UAV status
mapping and the failure mapping filled by `_find_uav_by_id`. -/
structure UAVINFMessage where
  status : List (String × String)
  failure : List (String × String)
deriving DecidableEq

/-- The id loop of `create_UAV_INF_message_for`: store the status view of
each registered UAV, or a "No such UAV" failure entry. -/
def uavInfGo (env : DispatchEnv) : List String → UAVINFMessage → UAVINFMessage
  | [], m => m
  | uavId :: rest, m =>
      match findU env uavId with
      | some u => uavInfGo env rest { m with status := upsert m.status uavId u.status }
      | none => uavInfGo env rest { m with failure := upsert m.failure uavId "No such UAV" }

/-- `create_UAV_INF_message_for` (app.py lines 334-370): for every id, store
the status view of the registered UAV under that id, or register a
"No such UAV" failure. -/
def createUAVINFMessageFor (env : DispatchEnv) (uavIds : List String) : UAVINFMessage :=
  uavInfGo env uavIds { status := [], failure := [] }

/-- `request_to_send_UAV_INF_message_for` (app.py lines 571-581): create the
UAV-INF message for the ids and hand it to the message hub; the function
keeps no state and performs no delaying, so the created message is the one
sent. -/
def requestToSendUAVINFMessageFor (env : DispatchEnv) (uavIds : List String) :
    UAVINFMessage :=
  createUAVINFMessageFor env uavIds

/-- A sequence of broadcast requests processed by
`request_to_send_UAV_INF_message_for`: each request results in one
immediately sent message. -/
def processUAVINFRequests (env : DispatchEnv) (requests : List (List String)) :
    List UAVINFMessage :=
  requests.map (requestToSendUAVINFMessageFor env)

/-- Modelled from the spec: one reference-counted subscription entry of the
device tree subscription manager (`model/devices.py` is not part of the
source snapshot): a client, a slash-delimited path (as its segment list) and
a count of at least one. -/
structure Subscription where
  client : String
  path : List String
  count : Nat
deriving DecidableEq

/-- Whether a path lies at or under a subtree root (the root path is a
segment-wise prefix of the path). -/
def pathUnder (root p : List String) : Bool :=
  match root, p with
  | [], _ => true
  | _ :: _, [] => false
  | r :: rs, x :: xs => if r = x then pathUnder rs xs else false

/-- Modelled from the spec: `list_subscriptions` returns the multiset
(a `Counter` keyed by path) of the subscriptions of the client that fall at
or under any of the filter roots. -/
def listSubscriptions (subs : List Subscription) (client : String)
    (roots : List (List String)) : List (List String × Nat) :=
  subs.filterMap fun s =>
    if s.client = client ∧ (roots.any fun r => pathUnder r s.path) then
      some (s.path, s.count)
    else none

/-- The failures `unsubscribe` can raise (spec section 4.3 and 7). -/
inductive SubError where
  | noSuchPath : SubError
  | clientNotSubscribed : SubError
deriving DecidableEq

/-- Modelled from the spec: `unsubscribe` fails with ClientNotSubscribed
when no matching entry exists; with `force` it removes the entry regardless
of the count, otherwise it decrements the count by one and removes the
entry only when the count reaches zero. -/
def unsubscribe (subs : List Subscription) (client : String) (path : List String)
    (force : Bool) : Except SubError (List Subscription) :=
  match subs with
  | [] => Except.error SubError.clientNotSubscribed
  | s :: rest =>
      if s.client = client ∧ s.path = path then
        if force then Except.ok rest
        else if s.count ≤ 1 then Except.ok rest
        else Except.ok ({ s with count := s.count - 1 } :: rest)
      else
        match unsubscribe rest client path force with
        | .ok rest1 => Except.ok (s :: rest1)
        | .error e => Except.error e

/-- The path loop of `create_DEV_UNSUB_message_for`: unsubscribe each path
in turn with `force = remove_all`, recording a success or the failure
matching the caught error. -/
def devUnsubGo (client : String) (removeAll : Bool) :
    List (List String) → FlockwaveResponse (List String) × List Subscription →
      FlockwaveResponse (List String) × List Subscription
  | [], acc => acc
  | path :: rest, acc =>
      match unsubscribe acc.2 client path removeAll with
      | .ok subs1 => devUnsubGo client removeAll rest (acc.1.addSuccess path, subs1)
      | .error .noSuchPath =>
          devUnsubGo client removeAll rest
            (acc.1.addFailure path "No such device tree path", acc.2)
      | .error .clientNotSubscribed =>
          devUnsubGo client removeAll rest
            (acc.1.addFailure path "Not subscribed to this path", acc.2)

/-- `create_DEV_UNSUB_message_for` (app.py lines 288-332): when
`include_subtrees` is set, replace the requested paths by the keys of the
`Counter` returned by `list_subscriptions` (iterating a `Counter` yields
each distinct path once); then unsubscribe each path with
`force = remove_all`, recording a success or the appropriate failure. -/
def createDEVUNSUBMessageFor (subs : List Subscription) (client : String)
    (paths : List (List String)) (removeAll includeSubtrees : Bool) :
    FlockwaveResponse (List String) × List Subscription :=
  let paths :=
    if includeSubtrees then (listSubscriptions subs client paths).map Prod.fst
    else paths
  devUnsubGo client removeAll paths (FlockwaveResponse.empty, subs)

/-- The total count of subscriptions a client holds at or under a root: the
quantity claim C8 speaks about. -/
def clientSubCountUnder (subs : List Subscription) (client : String)
    (root : List String) : Nat :=
  (subs.filterMap fun s =>
    if s.client = client ∧ pathUnder root s.path then some s.count else none).sum

/-- The hypothesis of claim C1 on one driver group: the capability lookup
either succeeds or raises an exception the dispatcher catches, and the
capability call either raises an exception the dispatcher catches (a
`RuntimeError`) or returns a mapping with exactly one outcome per vehicle
passed to the call. -/
def groupOK (env : DispatchEnv) (mname : Option String) (params : List (String × String))
    (d : String) (us : List UAV) : Prop :=
  match lookupExcOf env mname d with
  | some e => (e.isRuntimeError || e.isTypeError) = true
  | none =>
      match (env.behavior d).call us params with
      | .ok results =>
          (results.map Prod.fst).Nodup ∧ (∀ u ∈ results.map Prod.fst, u ∈ us) ∧
            ∀ u ∈ us, u ∈ results.map Prod.fst
      | .error e => e.isRuntimeError = true

instance decidableGroupOK (env : DispatchEnv) (mname : Option String)
    (params : List (String × String)) (d : String) (us : List UAV) :
    Decidable (groupOK env mname params d us) := by
  unfold groupOK
  cases lookupExcOf env mname d with
  | none =>
      cases (env.behavior d).call us params with
      | ok results => exact inferInstance
      | error e => exact inferInstance
  | some e => exact inferInstance

/-! ### Concrete fixtures used by witnesses and counterexamples -/

/-- Fixture: a UAV owned by driver d1. -/
def fixU1 : UAV := ⟨"v1", "d1", "s1"⟩

/-- Fixture: a second UAV owned by driver d1. -/
def fixU2 : UAV := ⟨"v2", "d1", "s2"⟩

/-- Fixture: a UAV owned by driver d2. -/
def fixU3 : UAV := ⟨"v3", "d2", "s3"⟩

/-- Fixture: a pending receipt with id r1. -/
def fixReceipt1 : CommandExecutionStatus := ⟨"r1", [], false, .pending, none⟩

/-- Fixture: a driver whose capability call answers `True` for every vehicle
except v2, which gets the asynchronous receipt r1. -/
def fixBehMixed : DriverBehavior :=
  { lookup := fun _ => none,
    call := fun us _ =>
      Except.ok (us.map fun u =>
        (u, if u.id = "v2" then Outcome.receiptVal "r1" else Outcome.trueVal)) }

/-- Fixture: a driver whose capability call raises `NotImplementedError`. -/
def fixBehNotImpl : DriverBehavior :=
  { lookup := fun _ => none, call := fun _ _ => Except.error PyExc.notImplementedError }

/-- Fixture: a driver whose capability call raises `NotSupportedError`. -/
def fixBehNotSupp : DriverBehavior :=
  { lookup := fun _ => none,
    call := fun _ _ => Except.error (PyExc.notSupportedError "unsupported") }

/-- Fixture: a driver whose capability call raises a `ValueError`, an
exception class outside `RuntimeError`. -/
def fixBehValueError : DriverBehavior :=
  { lookup := fun _ => none,
    call := fun _ _ => Except.error (PyExc.otherError "ValueError" "boom") }

/-- Fixture: a driver whose capability call raises a plain `RuntimeError`. -/
def fixBehRuntime : DriverBehavior :=
  { lookup := fun _ => none, call := fun _ _ => Except.error (PyExc.runtimeError "boom") }

/-- Fixture: an environment with three UAVs on two drivers; driver d1
answers per vehicle, driver d2 raises `NotSupportedError`. -/
def fixEnvMixed : DispatchEnv :=
  { uavRegistry := [fixU1, fixU2, fixU3],
    behavior := fun d => if d = "d1" then fixBehMixed else fixBehNotSupp }

/-- Fixture: an environment with one UAV whose driver raises
`NotImplementedError`. -/
def fixEnvNotImpl : DispatchEnv :=
  { uavRegistry := [fixU1], behavior := fun _ => fixBehNotImpl }

/-- Fixture: an environment with one UAV whose driver raises `ValueError`. -/
def fixEnvValueError : DispatchEnv :=
  { uavRegistry := [fixU1], behavior := fun _ => fixBehValueError }

/-- Fixture: an environment with one UAV whose driver raises a plain
`RuntimeError`. -/
def fixEnvRuntime : DispatchEnv :=
  { uavRegistry := [fixU1], behavior := fun _ => fixBehRuntime }

/-- Fixture: a CMD-REQ message targeting the three registered UAVs and one
unknown id. -/
def fixMsg : FlockwaveMessage := ⟨"CMD-REQ", ["v1", "v2", "v3", "zz"], []⟩

/-- Fixture: a CMD-REQ message targeting only v1. -/
def fixMsg1 : FlockwaveMessage := ⟨"CMD-REQ", ["v1"], []⟩

/-- Fixture: a dispatch state with an empty ledger, no receipts and an
empty log. -/
def fixStEmpty : DispatchState := ⟨FlockwaveResponse.empty, [], []⟩

/-- Fixture: a dispatch state with an empty ledger whose command execution
manager holds the pending receipt r1. -/
def fixStR1 : DispatchState := ⟨FlockwaveResponse.empty, [fixReceipt1], []⟩

/-- Fixture: the timed-out receipts of the spec scenario: r1 and r2 notify
client c1, r3 notifies client c2. -/
def fixTimedOut : List CommandExecutionStatus :=
  [⟨"r1", ["c1"], false, .timedOut, none⟩,
   ⟨"r2", ["c1"], false, .timedOut, none⟩,
   ⟨"r3", ["c2"], false, .timedOut, none⟩]

/-- Fixture: a finished receipt with two clients to notify and no stored
response payload. -/
def fixFinished : CommandExecutionStatus := ⟨"r9", ["c1", "c2"], true, .finished, none⟩

/-- Fixture: a subscription state where client c subscribed twice to the
path /A/b/c. -/
def fixSubs : List Subscription := [⟨"c", ["A", "b", "c"], 2⟩]

/-! ### Lemmas about the association-list and multimap primitives -/

theorem mem_keys_upsert {κ α : Type} [DecidableEq κ] (l : List (κ × α)) (k : κ) (v : α)
    (x : κ) : x ∈ (upsert l k v).map Prod.fst ↔ x = k ∨ x ∈ l.map Prod.fst := by
  induction l with
  | nil => simp [upsert]
  | cons hd tl ih =>
      by_cases h : hd.1 = k
      · obtain ⟨k0, v0⟩ := hd
        simp only at h
        subst h
        simp [upsert]

      · obtain ⟨k0, v0⟩ := hd
        simp only at h
        simp only [upsert, if_neg h, List.map_cons, List.mem_cons, ih]
        tauto

theorem nodup_keys_upsert {κ α : Type} [DecidableEq κ] (l : List (κ × α)) (k : κ) (v : α)
    (h : (l.map Prod.fst).Nodup) : ((upsert l k v).map Prod.fst).Nodup := by
  induction l with
  | nil => simp [upsert]
  | cons hd tl ih =>
      obtain ⟨k0, v0⟩ := hd
      simp only [List.map_cons, List.nodup_cons] at h
      by_cases hk : k0 = k
      · subst hk
        simpa [upsert, List.nodup_cons] using h
      · simp only [upsert, if_neg hk, List.map_cons, List.nodup_cons]
        refine ⟨?_, ih h.2⟩
        intro hmem
        rcases (mem_keys_upsert tl k v k0).1 hmem with h1 | h1
        · exact hk h1
        · exact h.1 h1

theorem lookupA_upsert {κ α : Type} [DecidableEq κ] (l : List (κ × α)) (k : κ) (v : α)
    (x : κ) : lookupA (upsert l k v) x = if x = k then some v else lookupA l x := by
  induction l with
  | nil =>
      by_cases hx : x = k
      · subst hx
        simp [upsert, lookupA]
      · have hk : ¬k = x := fun h => hx h.symm
        simp [upsert, lookupA, hx, hk]
  | cons hd tl ih =>
      obtain ⟨k0, v0⟩ := hd
      by_cases hk : k0 = k
      · subst hk
        by_cases hx : k0 = x
        · subst hx
          simp [upsert, lookupA]
        · have hx2 : ¬x = k0 := fun h => hx h.symm
          simp [upsert, lookupA, hx, hx2]
      · by_cases hx : k0 = x
        · subst hx
          simp [upsert, lookupA, hk]
        · simp [upsert, lookupA, hk, hx, ih]

theorem mem_keys_multiMapAdd {α : Type} (l : List (String × List α)) (k : String) (v : α)
    (x : String) : x ∈ (multiMapAdd l k v).map Prod.fst ↔ x = k ∨ x ∈ l.map Prod.fst := by
  induction l with
  | nil => simp [multiMapAdd]
  | cons hd tl ih =>
      obtain ⟨k0, vs⟩ := hd
      by_cases h : k0 = k
      · subst h
        simp [multiMapAdd]
      · simp only [multiMapAdd, if_neg h, List.map_cons, List.mem_cons, ih]
        tauto

theorem nodup_keys_multiMapAdd {α : Type} (l : List (String × List α)) (k : String) (v : α)
    (h : (l.map Prod.fst).Nodup) : ((multiMapAdd l k v).map Prod.fst).Nodup := by
  induction l with
  | nil => simp [multiMapAdd]
  | cons hd tl ih =>
      obtain ⟨k0, vs⟩ := hd
      simp only [List.map_cons, List.nodup_cons] at h
      by_cases hk : k0 = k
      · subst hk
        simpa [multiMapAdd, List.nodup_cons] using h
      · simp only [multiMapAdd, if_neg hk, List.map_cons, List.nodup_cons]
        refine ⟨?_, ih h.2⟩
        intro hmem
        rcases (mem_keys_multiMapAdd tl k v k0).1 hmem with h1 | h1
        · exact hk h1
        · exact h.1 h1

theorem mmGet_multiMapAdd {α : Type} (l : List (String × List α)) (k : String) (v : α)
    (x : String) :
    mmGet (multiMapAdd l k v) x = if x = k then mmGet l x ++ [v] else mmGet l x := by
  induction l with
  | nil =>
      by_cases hx : x = k
      · subst hx
        simp [multiMapAdd, mmGet]
      · have hk : ¬k = x := fun h => hx h.symm
        simp [multiMapAdd, mmGet, hx, hk]
  | cons hd tl ih =>
      obtain ⟨k0, vs⟩ := hd
      by_cases hk : k0 = k
      · subst hk
        by_cases hx : k0 = x
        · subst hx
          simp [multiMapAdd, mmGet]
        · have hx2 : ¬x = k0 := fun h => hx h.symm
          simp [multiMapAdd, mmGet, hx, hx2]
      · by_cases hx : k0 = x
        · subst hx
          simp [multiMapAdd, mmGet, hk]
        · simp [multiMapAdd, mmGet, hk, hx, ih]

theorem mmGet_of_mem_nodup {α : Type} (l : List (String × List α)) (k : String)
    (vs : List α) (hmem : (k, vs) ∈ l) (hnd : (l.map Prod.fst).Nodup) :
    mmGet l k = vs := by
  induction l with
  | nil => cases hmem
  | cons hd tl ih =>
      obtain ⟨k0, vs0⟩ := hd
      simp only [List.map_cons, List.nodup_cons] at hnd
      rcases List.mem_cons.1 hmem with h | h
      · obtain ⟨h1, h2⟩ := Prod.mk.inj h
        subst h1
        subst h2
        simp [mmGet]
      · have hk : ¬k0 = k := by
          intro he
          subst he
          exact hnd.1 (List.mem_map.2 ⟨(k0, vs), h, rfl⟩)
        simp [mmGet, hk, ih h hnd.2]

theorem mem_keys_iff_exists {α : Type} (l : List (String × List α)) (k : String) :
    k ∈ l.map Prod.fst ↔ ∃ vs, (k, vs) ∈ l := by
  constructor
  · intro h
    rcases List.mem_map.1 h with ⟨p, hp, he⟩
    exact ⟨p.2, by simpa [← he] using hp⟩
  · rintro ⟨vs, h⟩
    exact List.mem_map.2 ⟨(k, vs), h, rfl⟩

theorem countP_eq_one_of_nodup_keys {α : Type} (l : List (String × α)) (c : String)
    (hnd : (l.map Prod.fst).Nodup) :
    l.countP (fun p => decide (p.1 = c)) = if c ∈ l.map Prod.fst then 1 else 0 := by
  induction l with
  | nil => simp
  | cons hd tl ih =>
      obtain ⟨k0, v0⟩ := hd
      simp only [List.map_cons, List.nodup_cons] at hnd
      by_cases hk : k0 = c
      · subst hk
        simp [List.countP_cons, ih hnd.2, hnd.1]
      · have hck : ¬c = k0 := fun h => hk h.symm
        by_cases hc : c ∈ List.map Prod.fst tl <;>
          simp [List.countP_cons, hk, ih hnd.2, List.mem_cons, hck, hc]

/-! ### The timeout handler: grouping receipt ids by client -/

theorem keys_foldl_clients (clients : List String) (i : String)
    (acc : List (String × List String)) (c : String) :
    (c ∈ (clients.foldl (fun a client => multiMapAdd a client i) acc).map Prod.fst) ↔
      c ∈ acc.map Prod.fst ∨ c ∈ clients := by
  induction clients generalizing acc with
  | nil => simp
  | cons hd tl ih =>
      simp only [List.foldl_cons, ih, mem_keys_multiMapAdd, List.mem_cons]
      tauto

theorem mmGet_foldl_clients (clients : List String) (i : String)
    (acc : List (String × List String)) (c rid : String) :
    (rid ∈ mmGet (clients.foldl (fun a client => multiMapAdd a client i) acc) c) ↔
      rid ∈ mmGet acc c ∨ (rid = i ∧ c ∈ clients) := by
  induction clients generalizing acc with
  | nil => simp
  | cons hd tl ih =>
      simp only [List.foldl_cons, ih, mmGet_multiMapAdd, List.mem_cons]
      by_cases hc : c = hd <;> simp [hc] <;> try tauto

theorem nodup_keys_foldl_clients (clients : List String) (i : String)
    (acc : List (String × List String)) (h : (acc.map Prod.fst).Nodup) :
    ((clients.foldl (fun a client => multiMapAdd a client i) acc).map Prod.fst).Nodup := by
  induction clients generalizing acc with
  | nil => exact h
  | cons hd tl ih =>
      simp only [List.foldl_cons]
      exact ih _ (nodup_keys_multiMapAdd acc hd i h)

theorem keys_receiptIdsByClients_aux (statuses : List CommandExecutionStatus)
    (acc : List (String × List String)) (c : String) :
    (c ∈ (statuses.foldl
        (fun acc status =>
          status.clientsToNotify.foldl (fun a client => multiMapAdd a client status.id) acc)
        acc).map Prod.fst) ↔
      c ∈ acc.map Prod.fst ∨ ∃ s ∈ statuses, c ∈ s.clientsToNotify := by
  induction statuses generalizing acc with
  | nil => simp
  | cons hd tl ih =>
      simp only [List.foldl_cons, ih, keys_foldl_clients, List.mem_cons]
      constructor
      · rintro ((h | h) | ⟨s, hs, hc⟩)
        · exact Or.inl h
        · exact Or.inr ⟨hd, Or.inl rfl, h⟩
        · exact Or.inr ⟨s, Or.inr hs, hc⟩
      · rintro (h | ⟨s, hs | hs, hc⟩)
        · exact Or.inl (Or.inl h)
        · exact Or.inl (Or.inr (hs ▸ hc))
        · exact Or.inr ⟨s, hs, hc⟩

theorem mmGet_receiptIdsByClients_aux (statuses : List CommandExecutionStatus)
    (acc : List (String × List String)) (c rid : String) :
    (rid ∈ mmGet (statuses.foldl
        (fun acc status =>
          status.clientsToNotify.foldl (fun a client => multiMapAdd a client status.id) acc)
        acc) c) ↔
      rid ∈ mmGet acc c ∨ ∃ s ∈ statuses, s.id = rid ∧ c ∈ s.clientsToNotify := by
  induction statuses generalizing acc with
  | nil => simp
  | cons hd tl ih =>
      simp only [List.foldl_cons, ih, mmGet_foldl_clients, List.mem_cons]
      constructor
      · rintro ((h | ⟨h1, h2⟩) | ⟨s, hs, hi, hc⟩)
        · exact Or.inl h
        · exact Or.inr ⟨hd, Or.inl rfl, h1.symm, h2⟩
        · exact Or.inr ⟨s, Or.inr hs, hi, hc⟩
      · rintro (h | ⟨s, hs | hs, hi, hc⟩)
        · exact Or.inl (Or.inl h)
        · subst hs
          exact Or.inl (Or.inr ⟨hi.symm, hc⟩)
        · exact Or.inr ⟨s, hs, hi, hc⟩

theorem nodup_keys_receiptIdsByClients (statuses : List CommandExecutionStatus) :
    ((receiptIdsByClients statuses).map Prod.fst).Nodup := by
  have aux : ∀ (ss : List CommandExecutionStatus) (acc : List (String × List String)),
      (acc.map Prod.fst).Nodup →
      ((ss.foldl
          (fun acc status =>
            status.clientsToNotify.foldl (fun a client => multiMapAdd a client status.id) acc)
          acc).map Prod.fst).Nodup := by
    intro ss
    induction ss with
    | nil => intro acc h; exact h
    | cons hd tl ih =>
        intro acc h
        simp only [List.foldl_cons]
        exact ih _ (nodup_keys_foldl_clients hd.clientsToNotify hd.id acc h)
  exact aux statuses [] (by simp)

/-! ### CMD-DEL: cancellation and ledger lemmas -/

theorem cancelReceipt_preserves_id (s : CommandExecutionStatus) (q : String) :
    (if s.id = q then
        (if s.state = ReceiptState.pending then { s with state := ReceiptState.cancelled }
         else s)
      else s).id = s.id := by
  by_cases h : s.id = q <;> by_cases h2 : s.state = ReceiptState.pending <;> simp [h, h2]

theorem find_isSome_map_id_preserving (f : CommandExecutionStatus → CommandExecutionStatus)
    (hf : ∀ s, (f s).id = s.id) (m : List CommandExecutionStatus) (rid : String) :
    (List.find? (fun s => decide (s.id = rid)) (m.map f)).isSome =
      (List.find? (fun s => decide (s.id = rid)) m).isSome := by
  induction m with
  | nil => rfl
  | cons hd tl ih =>
      simp only [List.map_cons, List.find?]
      have hrw : (decide ((f hd).id = rid)) = (decide (hd.id = rid)) := by rw [hf hd]
      rw [hrw]
      cases hdec : decide (hd.id = rid)
      case false => exact ih
      case true => rfl

theorem findReceipt_cancelReceipt_isSome (m : List CommandExecutionStatus) (rid q : String) :
    (findReceipt (cancelReceipt m q) rid).isSome = (findReceipt m rid).isSome := by
  simp only [findReceipt, cancelReceipt]
  exact find_isSome_map_id_preserving _ (fun s => cancelReceipt_preserves_id s q) m rid

theorem cancelReceipt_cancels (m : List CommandExecutionStatus) (rid : String)
    (h : ∀ s ∈ m, s.id = rid →
      s.state = ReceiptState.pending ∨ s.state = ReceiptState.cancelled) :
    ∀ s ∈ cancelReceipt m rid, s.id = rid → s.state = ReceiptState.cancelled := by
  intro s hs hsid
  rcases List.mem_map.1 hs with ⟨s0, hs0, he⟩
  by_cases h1 : s0.id = rid
  · by_cases h2 : s0.state = ReceiptState.pending
    · rw [← he]
      simp [h1, h2]
    · have h3 := h s0 hs0 h1
      rcases h3 with hp | hc
      · exact absurd hp h2
      · rw [← he]
        simp [h1, h2, hc]
  · rw [← he] at hsid
    simp [h1] at hsid

theorem cancelReceipt_keeps_state (m : List CommandExecutionStatus) (rid q : String)
    (h : ∀ s ∈ m, s.id = rid → s.state = ReceiptState.cancelled) :
    ∀ s ∈ cancelReceipt m q, s.id = rid → s.state = ReceiptState.cancelled := by
  intro s hs hsid
  rcases List.mem_map.1 hs with ⟨s0, hs0, he⟩
  by_cases h1 : s0.id = q
  · by_cases h2 : s0.state = ReceiptState.pending
    · rw [← he]
      simp [h1, h2]
    · rw [← he] at hsid ⊢
      simp [h1, h2] at hsid ⊢
      exact h s0 hs0 (h1.trans hsid)
  · rw [← he] at hsid ⊢
    simp [h1] at hsid ⊢
    exact h s0 hs0 hsid

theorem cancelReceipt_keeps_pend_or_can (m : List CommandExecutionStatus) (rid q : String)
    (h : ∀ s ∈ m, s.id = rid →
      s.state = ReceiptState.pending ∨ s.state = ReceiptState.cancelled) :
    ∀ s ∈ cancelReceipt m q, s.id = rid →
      s.state = ReceiptState.pending ∨ s.state = ReceiptState.cancelled := by
  intro s hs hsid
  rcases List.mem_map.1 hs with ⟨s0, hs0, he⟩
  by_cases h1 : s0.id = q
  · by_cases h2 : s0.state = ReceiptState.pending
    · rw [← he]
      simp [h1, h2]
    · rw [← he] at hsid ⊢
      simp [h1, h2] at hsid ⊢
      rcases h s0 hs0 (h1.trans hsid) with hp | hc
      · exact absurd hp h2
      · exact hc
  · rw [← he] at hsid ⊢
    simp [h1] at hsid ⊢
    exact h s0 hs0 hsid

theorem cmdDelGo_success_mono (rids : List String)
    (acc : FlockwaveResponse String × List CommandExecutionStatus) (x : String)
    (h : x ∈ acc.1.success) : x ∈ (cmdDelGo rids acc).1.success := by
  induction rids generalizing acc with
  | nil => exact h
  | cons rid rest ih =>
      unfold cmdDelGo findCommandReceiptById
      cases hf : findReceipt acc.2 rid with
      | some entry =>
          exact ih _ (by simp [FlockwaveResponse.addSuccess, h])
      | none =>
          exact ih _ (by simp [FlockwaveResponse.addFailure, h])

theorem cmdDelGo_failure_mono (rids : List String)
    (acc : FlockwaveResponse String × List CommandExecutionStatus) (x : String)
    (h : lookupA acc.1.failure x = some "No such receipt") :
    lookupA (cmdDelGo rids acc).1.failure x = some "No such receipt" := by
  induction rids generalizing acc with
  | nil => exact h
  | cons rid rest ih =>
      unfold cmdDelGo findCommandReceiptById
      cases hf : findReceipt acc.2 rid with
      | some entry =>
          exact ih _ (by simpa [FlockwaveResponse.addSuccess] using h)
      | none =>
          refine ih _ ?_
          simp only [FlockwaveResponse.addFailure, lookupA_upsert]
          by_cases hx : x = rid <;> simp [hx, h]

theorem cmdDelGo_can_mono (rids : List String)
    (acc : FlockwaveResponse String × List CommandExecutionStatus) (rid : String)
    (h : ∀ s ∈ acc.2, s.id = rid → s.state = ReceiptState.cancelled) :
    ∀ s ∈ (cmdDelGo rids acc).2, s.id = rid → s.state = ReceiptState.cancelled := by
  induction rids generalizing acc with
  | nil => exact h
  | cons q rest ih =>
      unfold cmdDelGo findCommandReceiptById
      cases hf : findReceipt acc.2 q with
      | some entry => exact ih _ (cancelReceipt_keeps_state acc.2 rid entry.id h)
      | none => exact ih _ h

theorem cmdDelGo_spec (rids : List String)
    (acc : FlockwaveResponse String × List CommandExecutionStatus) (rid : String)
    (hmem : rid ∈ rids) :
    ((findReceipt acc.2 rid).isSome →
        rid ∈ (cmdDelGo rids acc).1.success ∧
        ((∀ s ∈ acc.2, s.id = rid →
            s.state = ReceiptState.pending ∨ s.state = ReceiptState.cancelled) →
          ∀ s ∈ (cmdDelGo rids acc).2, s.id = rid → s.state = ReceiptState.cancelled)) ∧
    ((findReceipt acc.2 rid) = none →
        lookupA (cmdDelGo rids acc).1.failure rid = some "No such receipt") := by
  induction rids generalizing acc with
  | nil => cases hmem
  | cons q rest ih =>
      by_cases hq : rid = q
      · subst hq
        constructor
        · intro hsome
          rcases Option.isSome_iff_exists.1 hsome with ⟨entry, hentry⟩
          have hentryid : entry.id = rid := by
            have := List.find?_some hentry
            exact of_decide_eq_true this
          unfold cmdDelGo findCommandReceiptById
          rw [hentry]
          constructor
          · exact cmdDelGo_success_mono rest _ rid
              (by simp [FlockwaveResponse.addSuccess])
          · intro hpend
            refine cmdDelGo_can_mono rest _ rid ?_
            rw [hentryid]
            exact cancelReceipt_cancels acc.2 rid hpend
        · intro hnone
          unfold cmdDelGo findCommandReceiptById
          rw [hnone]
          refine cmdDelGo_failure_mono rest _ rid ?_
          simp [FlockwaveResponse.addFailure, lookupA_upsert]
      · have hrest : rid ∈ rest := by
          rcases List.mem_cons.1 hmem with h | h
          · exact absurd h hq
          · exact h
        unfold cmdDelGo findCommandReceiptById
        cases hf : findReceipt acc.2 q with
        | some entry =>
            have hih := ih (acc.1.addSuccess q, cancelReceipt acc.2 entry.id) hrest
            have hsome : (findReceipt (cancelReceipt acc.2 entry.id) rid).isSome =
                (findReceipt acc.2 rid).isSome :=
              findReceipt_cancelReceipt_isSome acc.2 rid entry.id
            constructor
            · intro hs
              have hs2 : (findReceipt (cancelReceipt acc.2 entry.id) rid).isSome := by
                rw [hsome]; exact hs
              refine ⟨(hih.1 hs2).1, ?_⟩
              intro hpend
              exact (hih.1 hs2).2
                (cancelReceipt_keeps_pend_or_can acc.2 rid entry.id hpend)
            · intro hn
              have hn2 : findReceipt (cancelReceipt acc.2 entry.id) rid = none := by
                have : ¬(findReceipt (cancelReceipt acc.2 entry.id) rid).isSome := by
                  rw [hsome]
                  simp [hn]
                simpa [Option.isSome_iff_exists, Option.eq_none_iff_forall_not_mem]
                  using Option.not_isSome_iff_eq_none.1 this
              exact hih.2 hn2
        | none =>
            exact ih (acc.1.addFailure q "No such receipt", acc.2) hrest

/-! ### UAV-INF broadcast request lemmas -/

theorem uavInfGo_status_lookup (env : DispatchEnv) (ids : List String)
    (acc : UAVINFMessage) (x : String) :
    lookupA (uavInfGo env ids acc).status x =
      if x ∈ ids ∧ (findU env x).isSome then (findU env x).map UAV.status
      else lookupA acc.status x := by
  induction ids generalizing acc with
  | nil => simp [uavInfGo]
  | cons hd rest ih =>
      unfold uavInfGo
      cases hfd : findU env hd with
      | some u =>
          rw [ih]
          by_cases hmem : x ∈ rest ∧ (findU env x).isSome
          · simp only [if_pos hmem]
            have : x ∈ hd :: rest ∧ (findU env x).isSome :=
              ⟨List.mem_cons_of_mem hd hmem.1, hmem.2⟩
            rw [if_pos this]
          · rw [if_neg hmem]
            simp only [lookupA_upsert]
            by_cases hx : x = hd
            · subst hx
              have hsome : (findU env x).isSome := by rw [hfd]; rfl
              have hc2 : x ∈ x :: rest ∧ (findU env x).isSome := ⟨List.mem_cons_self x rest, hsome⟩
              rw [if_pos hc2, hfd]
              simp
            · have hc2 : ¬(x ∈ hd :: rest ∧ (findU env x).isSome) := by
                intro hc
                rcases List.mem_cons.1 hc.1 with h | h
                · exact hx h
                · exact hmem ⟨h, hc.2⟩
              rw [if_neg hc2, if_neg hx]
      | none =>
          rw [ih]
          by_cases hmem : x ∈ rest ∧ (findU env x).isSome
          · have : x ∈ hd :: rest ∧ (findU env x).isSome :=
              ⟨List.mem_cons_of_mem hd hmem.1, hmem.2⟩
            rw [if_pos hmem, if_pos this]
          · rw [if_neg hmem]
            have : ¬(x ∈ hd :: rest ∧ (findU env x).isSome) := by
              intro hc
              rcases List.mem_cons.1 hc.1 with h | h
              · subst h
                rw [hfd] at hc
                simp at hc
              · exact hmem ⟨h, hc.2⟩
            rw [if_neg this]

theorem uavInfGo_failure_lookup (env : DispatchEnv) (ids : List String)
    (acc : UAVINFMessage) (x : String) :
    lookupA (uavInfGo env ids acc).failure x =
      if x ∈ ids ∧ findU env x = none then some "No such UAV"
      else lookupA acc.failure x := by
  induction ids generalizing acc with
  | nil => simp [uavInfGo]
  | cons hd rest ih =>
      unfold uavInfGo
      cases hfd : findU env hd with
      | some u =>
          rw [ih]
          by_cases hmem : x ∈ rest ∧ findU env x = none
          · have : x ∈ hd :: rest ∧ findU env x = none :=
              ⟨List.mem_cons_of_mem hd hmem.1, hmem.2⟩
            rw [if_pos hmem, if_pos this]
          · rw [if_neg hmem]
            have : ¬(x ∈ hd :: rest ∧ findU env x = none) := by
              intro hc
              rcases List.mem_cons.1 hc.1 with h | h
              · subst h
                rw [hfd] at hc
                exact Option.noConfusion hc.2
              · exact hmem ⟨h, hc.2⟩
            rw [if_neg this]
      | none =>
          rw [ih]
          by_cases hmem : x ∈ rest ∧ findU env x = none
          · have : x ∈ hd :: rest ∧ findU env x = none :=
              ⟨List.mem_cons_of_mem hd hmem.1, hmem.2⟩
            rw [if_pos hmem, if_pos this]
          · rw [if_neg hmem]
            simp only [lookupA_upsert]
            by_cases hx : x = hd
            · subst hx
              have : x ∈ x :: rest ∧ findU env x = none := ⟨List.mem_cons_self x rest, hfd⟩
              rw [if_pos this, if_pos rfl]
            · have : ¬(x ∈ hd :: rest ∧ findU env x = none) := by
                intro hc
                rcases List.mem_cons.1 hc.1 with h | h
                · exact hx h
                · exact hmem ⟨h, hc.2⟩
              rw [if_neg this, if_neg hx]

/-! ### Dispatcher lemmas: group failures and outcome interpretation -/

theorem addFailures_success (us : List UAV) (reason : String) (r : FlockwaveResponse String) :
    (addFailures us reason r).success = r.success := by
  induction us generalizing r with
  | nil => rfl
  | cons u rest ih => simpa [addFailures, FlockwaveResponse.addFailure] using ih _

theorem addFailures_receipt (us : List UAV) (reason : String) (r : FlockwaveResponse String) :
    (addFailures us reason r).receipt = r.receipt := by
  induction us generalizing r with
  | nil => rfl
  | cons u rest ih => simpa [addFailures, FlockwaveResponse.addFailure] using ih _

theorem lookupA_addFailures (us : List UAV) (reason : String)
    (r : FlockwaveResponse String) (x : String) :
    lookupA (addFailures us reason r).failure x =
      if x ∈ us.map UAV.id then some reason else lookupA r.failure x := by
  induction us generalizing r with
  | nil => simp [addFailures]
  | cons u rest ih =>
      unfold addFailures
      rw [ih]
      by_cases hmem : x ∈ rest.map UAV.id
      · rw [if_pos hmem, if_pos (by simp [hmem])]
      · rw [if_neg hmem]
        simp only [FlockwaveResponse.addFailure, lookupA_upsert]
        by_cases hx : x = u.id
        · rw [if_pos hx, if_pos (by simp [hx])]
        · rw [if_neg hx, if_neg (by simp [List.mem_cons, hx, hmem, eq_comm])]

theorem mem_keys_addFailures (us : List UAV) (reason : String)
    (r : FlockwaveResponse String) (x : String) :
    x ∈ (addFailures us reason r).failure.map Prod.fst ↔
      x ∈ r.failure.map Prod.fst ∨ ∃ u ∈ us, u.id = x := by
  induction us generalizing r with
  | nil => simp [addFailures]
  | cons u rest ih =>
      unfold addFailures
      rw [ih]
      simp only [FlockwaveResponse.addFailure, mem_keys_upsert, List.mem_cons]
      constructor
      · rintro ((h | h) | ⟨v, hv, he⟩)
        · exact Or.inr ⟨u, Or.inl rfl, h.symm⟩
        · exact Or.inl h
        · exact Or.inr ⟨v, Or.inr hv, he⟩
      · rintro (h | ⟨v, hv | hv, he⟩)
        · exact Or.inl (Or.inr h)
        · exact Or.inl (Or.inl (by rw [← he, hv]))
        · exact Or.inr ⟨v, hv, he⟩

theorem nodup_keys_addFailures (us : List UAV) (reason : String)
    (r : FlockwaveResponse String) (h : (r.failure.map Prod.fst).Nodup) :
    ((addFailures us reason r).failure.map Prod.fst).Nodup := by
  induction us generalizing r with
  | nil => exact h
  | cons u rest ih =>
      unfold addFailures
      exact ih _ (nodup_keys_upsert r.failure u.id reason h)

/-! ### Lemmas about UAV resolution and driver grouping -/

/-- All UAVs collected in a driver grouping. -/
def groupUAVs : List (String × List UAV) → List UAV
  | [] => []
  | p :: rest => p.2 ++ groupUAVs rest

theorem mem_groupUAVs (gs : List (String × List UAV)) (u : UAV) :
    u ∈ groupUAVs gs ↔ ∃ p ∈ gs, u ∈ p.2 := by
  induction gs with
  | nil => simp [groupUAVs]
  | cons hd tl ih =>
      simp only [groupUAVs, List.mem_append, ih, List.mem_cons]
      constructor
      · rintro (h | ⟨p, hp, hu⟩)
        · exact ⟨hd, Or.inl rfl, h⟩
        · exact ⟨p, Or.inr hp, hu⟩
      · rintro ⟨p, hp | hp, hu⟩
        · exact Or.inl (hp ▸ hu)
        · exact Or.inr ⟨p, hp, hu⟩

theorem mem_groupUAVs_multiMapAdd (gs : List (String × List UAV)) (d : String)
    (u u' : UAV) :
    u' ∈ groupUAVs (multiMapAdd gs d u) ↔ u' = u ∨ u' ∈ groupUAVs gs := by
  induction gs with
  | nil => simp [multiMapAdd, groupUAVs]
  | cons hd tl ih =>
      obtain ⟨d0, us0⟩ := hd
      by_cases h : d0 = d
      · rw [show multiMapAdd ((d0, us0) :: tl) d u = (d0, us0 ++ [u]) :: tl from by
          simp [multiMapAdd, h]]
        simp only [groupUAVs, List.mem_append, List.mem_singleton]
        tauto
      · rw [show multiMapAdd ((d0, us0) :: tl) d u = (d0, us0) :: multiMapAdd tl d u from by
          simp [multiMapAdd, h]]
        simp only [groupUAVs, List.mem_append, ih]
        tauto

theorem multiMapAdd_pointwise (gs : List (String × List UAV)) (d : String) (u : UAV)
    (P : String → UAV → Prop) (hu : P d u) :
    (∀ p ∈ gs, ∀ x ∈ p.2, P p.1 x) → ∀ p ∈ multiMapAdd gs d u, ∀ x ∈ p.2, P p.1 x := by
  induction gs with
  | nil =>
      intro _ p hp x hx
      simp only [multiMapAdd, List.mem_singleton] at hp
      subst hp
      simp only [List.mem_singleton] at hx
      subst hx
      exact hu
  | cons hd tl ih =>
      obtain ⟨d0, us0⟩ := hd
      by_cases h : d0 = d
      · rw [show multiMapAdd ((d0, us0) :: tl) d u = (d0, us0 ++ [u]) :: tl from by
          simp [multiMapAdd, h]]
        intro hgs p hp x hx
        rcases List.mem_cons.1 hp with hp1 | hp1
        · subst hp1
          rcases List.mem_append.1 hx with hx1 | hx1
          · exact hgs (d0, us0) (List.mem_cons_self _ _) x hx1
          · have hxu := List.mem_singleton.1 hx1
            subst hxu
            rw [h]
            exact hu
        · exact hgs p (List.mem_cons_of_mem _ hp1) x hx
      · rw [show multiMapAdd ((d0, us0) :: tl) d u = (d0, us0) :: multiMapAdd tl d u from by
          simp [multiMapAdd, h]]
        intro hgs p hp x hx
        rcases List.mem_cons.1 hp with hp1 | hp1
        · subst hp1
          exact hgs (d0, us0) (List.mem_cons_self _ _) x hx
        · exact ih (fun q hq => hgs q (List.mem_cons_of_mem _ hq)) p hp1 x hx

theorem findU_id (env : DispatchEnv) (i : String) (u : UAV) (h : findU env i = some u) :
    u.id = i := by
  unfold findU at h
  have h2 := List.find?_some h
  simp only [decide_eq_true_eq] at h2
  exact h2

theorem sortGo_mem_groups (env : DispatchEnv) (ids : List String)
    (gs0 : List (String × List UAV)) (r0 : FlockwaveResponse String) (u : UAV) :
    u ∈ groupUAVs (sortGo env ids (gs0, r0)).1 ↔
      u ∈ groupUAVs gs0 ∨ ∃ i ∈ ids, findU env i = some u := by
  induction ids generalizing gs0 r0 with
  | nil => simp [sortGo]
  | cons hd rest ih =>
      unfold sortGo findUAVById
      cases hfd : findU env hd with
      | some v =>
          rw [ih]
          simp only [mem_groupUAVs_multiMapAdd, List.mem_cons]
          constructor
          · rintro ((h | h) | ⟨i, hi, hf⟩)
            · exact Or.inr ⟨hd, Or.inl rfl, h ▸ hfd⟩
            · exact Or.inl h
            · exact Or.inr ⟨i, Or.inr hi, hf⟩
          · rintro (h | ⟨i, hi | hi, hf⟩)
            · exact Or.inl (Or.inr h)
            · subst hi
              rw [hfd] at hf
              exact Or.inl (Or.inl (Option.some.inj hf).symm)
            · exact Or.inr ⟨i, hi, hf⟩
      | none =>
          rw [ih]
          simp only [List.mem_cons]
          constructor
          · rintro (h | ⟨i, hi, hf⟩)
            · exact Or.inl h
            · exact Or.inr ⟨i, Or.inr hi, hf⟩
          · rintro (h | ⟨i, hi | hi, hf⟩)
            · exact Or.inl h
            · subst hi
              rw [hfd] at hf
              exact Option.noConfusion hf
            · exact Or.inr ⟨i, hi, hf⟩

theorem sortGo_groups_pointwise (env : DispatchEnv) (ids : List String)
    (gs0 : List (String × List UAV)) (r0 : FlockwaveResponse String)
    (P : String → UAV → Prop) (hgs : ∀ p ∈ gs0, ∀ x ∈ p.2, P p.1 x)
    (hres : ∀ i u, findU env i = some u → P u.driver u) :
    ∀ p ∈ (sortGo env ids (gs0, r0)).1, ∀ x ∈ p.2, P p.1 x := by
  induction ids generalizing gs0 r0 with
  | nil => exact hgs
  | cons hd rest ih =>
      unfold sortGo findUAVById
      cases hfd : findU env hd with
      | some v =>
          exact ih _ _ (multiMapAdd_pointwise gs0 v.driver v P (hres hd v hfd) hgs)
      | none => exact ih _ _ hgs

theorem sortGo_keys_nodup (env : DispatchEnv) (ids : List String)
    (gs0 : List (String × List UAV)) (r0 : FlockwaveResponse String)
    (h : (gs0.map Prod.fst).Nodup) :
    ((sortGo env ids (gs0, r0)).1.map Prod.fst).Nodup := by
  induction ids generalizing gs0 r0 with
  | nil => exact h
  | cons hd rest ih =>
      unfold sortGo findUAVById
      cases hfd : findU env hd with
      | some v => exact ih _ _ (nodup_keys_multiMapAdd gs0 v.driver v h)
      | none => exact ih _ _ h

theorem sortGo_success (env : DispatchEnv) (ids : List String)
    (gs0 : List (String × List UAV)) (r0 : FlockwaveResponse String) :
    (sortGo env ids (gs0, r0)).2.success = r0.success := by
  induction ids generalizing gs0 r0 with
  | nil => rfl
  | cons hd rest ih =>
      unfold sortGo findUAVById
      cases hfd : findU env hd with
      | some v => exact ih _ _
      | none => simpa [FlockwaveResponse.addFailure] using ih _ _

theorem sortGo_receipt (env : DispatchEnv) (ids : List String)
    (gs0 : List (String × List UAV)) (r0 : FlockwaveResponse String) :
    (sortGo env ids (gs0, r0)).2.receipt = r0.receipt := by
  induction ids generalizing gs0 r0 with
  | nil => rfl
  | cons hd rest ih =>
      unfold sortGo findUAVById
      cases hfd : findU env hd with
      | some v => exact ih _ _
      | none => simpa [FlockwaveResponse.addFailure] using ih _ _

theorem sortGo_failure_lookup (env : DispatchEnv) (ids : List String)
    (gs0 : List (String × List UAV)) (r0 : FlockwaveResponse String) (x : String) :
    lookupA (sortGo env ids (gs0, r0)).2.failure x =
      if x ∈ ids ∧ findU env x = none then some "No such UAV"
      else lookupA r0.failure x := by
  induction ids generalizing gs0 r0 with
  | nil => simp [sortGo]
  | cons hd rest ih =>
      unfold sortGo findUAVById
      cases hfd : findU env hd with
      | some v =>
          rw [ih]
          by_cases hmem : x ∈ rest ∧ findU env x = none
          · rw [if_pos hmem, if_pos ⟨List.mem_cons_of_mem hd hmem.1, hmem.2⟩]
          · rw [if_neg hmem]
            have : ¬(x ∈ hd :: rest ∧ findU env x = none) := by
              intro hc
              rcases List.mem_cons.1 hc.1 with h | h
              · subst h
                rw [hfd] at hc
                exact Option.noConfusion hc.2
              · exact hmem ⟨h, hc.2⟩
            rw [if_neg this]
      | none =>
          rw [ih]
          by_cases hmem : x ∈ rest ∧ findU env x = none
          · rw [if_pos hmem, if_pos ⟨List.mem_cons_of_mem hd hmem.1, hmem.2⟩]
          · rw [if_neg hmem]
            simp only [FlockwaveResponse.addFailure, lookupA_upsert]
            by_cases hx : x = hd
            · subst hx
              simp [hfd]
            · have hc2 : ¬(x ∈ hd :: rest ∧ findU env x = none) := by
                intro hc
                rcases List.mem_cons.1 hc.1 with h | h
                · exact hx h
                · exact hmem ⟨h, hc.2⟩
              rw [if_neg hx, if_neg hc2]

theorem sortGo_failure_nodup (env : DispatchEnv) (ids : List String)
    (gs0 : List (String × List UAV)) (r0 : FlockwaveResponse String)
    (h : (r0.failure.map Prod.fst).Nodup) :
    ((sortGo env ids (gs0, r0)).2.failure.map Prod.fst).Nodup := by
  induction ids generalizing gs0 r0 with
  | nil => exact h
  | cons hd rest ih =>
      unfold sortGo findUAVById
      cases hfd : findU env hd with
      | some v => exact ih _ _ h
      | none => exact ih _ _ (nodup_keys_upsert r0.failure hd "No such UAV" h)

theorem lookupA_eq_none_iff {κ α : Type} [DecidableEq κ] (l : List (κ × α)) (k : κ) :
    lookupA l k = none ↔ k ∉ l.map Prod.fst := by
  induction l with
  | nil => simp [lookupA]
  | cons hd tl ih =>
      obtain ⟨k0, v0⟩ := hd
      by_cases h : k0 = k
      · subst h
        simp [lookupA]
      · have h2 : ¬k = k0 := fun he => h he.symm
        simp [lookupA, h, ih, h2]

theorem groupUAVs_mem_exists (gs : List (String × List UAV)) (u : UAV)
    (hwf : ∀ p ∈ gs, ∀ x ∈ p.2, x.driver = p.1) (h : u ∈ groupUAVs gs) :
    ∃ us, (u.driver, us) ∈ gs ∧ u ∈ us := by
  rcases (mem_groupUAVs gs u).1 h with ⟨p, hp, hu⟩
  obtain ⟨d, us⟩ := p
  have hd := hwf (d, us) hp u hu
  refine ⟨us, ?_, hu⟩
  rw [hd]
  exact hp

/-! ### Ledger-shape lemmas for the whole dispatch -/

theorem upsert_of_not_mem {κ α : Type} [DecidableEq κ] (l : List (κ × α)) (k : κ) (v : α)
    (h : k ∉ l.map Prod.fst) : upsert l k v = l ++ [(k, v)] := by
  induction l with
  | nil => rfl
  | cons hd tl ih =>
      obtain ⟨k0, v0⟩ := hd
      simp only [List.map_cons, List.mem_cons] at h
      push_neg at h
      have hk : ¬k0 = k := fun he => h.1 he.symm
      simp only [upsert, if_neg hk, List.cons_append]
      rw [ih h.2]

theorem upsert_keys_of_mem {κ α : Type} [DecidableEq κ] (l : List (κ × α)) (k : κ) (v : α)
    (h : k ∈ l.map Prod.fst) : (upsert l k v).map Prod.fst = l.map Prod.fst := by
  induction l with
  | nil => cases h
  | cons hd tl ih =>
      obtain ⟨k0, v0⟩ := hd
      by_cases hk : k0 = k
      · simp [upsert, hk]
      · simp only [List.map_cons, List.mem_cons] at h
        rcases h with h | h
        · exact absurd h.symm hk
        · simp [upsert, hk, ih h]

theorem nodup_insert_middle (a : String) (l1 l2 : List String)
    (h : (l1 ++ l2).Nodup) (ha : a ∉ l1 ++ l2) : (l1 ++ a :: l2).Nodup := by
  have hp : (l1 ++ a :: l2).Perm (a :: (l1 ++ l2)) := List.perm_middle
  rw [hp.nodup_iff]
  exact List.nodup_cons.2 ⟨ha, h⟩

theorem nodup_append_singleton (l : List String) (a : String) (h : l.Nodup)
    (ha : a ∉ l) : (l ++ [a]).Nodup := by
  have := nodup_insert_middle a l [] (by simpa using h) (by simpa using ha)
  simpa using this

theorem interpretResult_ledger (sender : String) (st : DispatchState) (u : UAV)
    (r : Outcome) (hdisj : u.id ∉ ledgerKeys st.resp) :
    (∀ x, x ∈ ledgerKeys (interpretResult sender st u r).resp ↔
        x ∈ ledgerKeys st.resp ∨ x = u.id) ∧
    ((ledgerKeys st.resp).Nodup →
      (ledgerKeys (interpretResult sender st u r).resp).Nodup) := by
  have hd3 : u.id ∉ st.resp.success ∧ u.id ∉ st.resp.failure.map Prod.fst ∧
      u.id ∉ st.resp.receipt.map Prod.fst := by
    simpa [ledgerKeys, List.mem_append, not_or] using hdisj
  cases r with
  | trueVal =>
      constructor
      · intro x
        simp only [interpretResult, ledgerKeys, FlockwaveResponse.addSuccess,
          List.mem_append, List.mem_cons, List.mem_singleton]
        tauto
      · intro hnd
        have heq : ledgerKeys (interpretResult sender st u Outcome.trueVal).resp =
            st.resp.success ++
              u.id :: (st.resp.failure.map Prod.fst ++ st.resp.receipt.map Prod.fst) := by
          simp [interpretResult, ledgerKeys, FlockwaveResponse.addSuccess,
            List.append_assoc]
        rw [heq]
        apply nodup_insert_middle
        · simpa [ledgerKeys, List.append_assoc] using hnd
        · simpa [ledgerKeys, List.append_assoc, List.mem_append, not_or] using hdisj
  | receiptVal rid =>
      have hup : upsert st.resp.receipt u.id rid = st.resp.receipt ++ [(u.id, rid)] :=
        upsert_of_not_mem _ _ _ hd3.2.2
      constructor
      · intro x
        simp only [interpretResult, ledgerKeys, FlockwaveResponse.addReceipt, hup,
          List.map_append, List.mem_append, List.mem_cons, List.mem_singleton,
          List.map_cons, List.map_nil]
        tauto
      · intro hnd
        have heq : ledgerKeys (interpretResult sender st u (Outcome.receiptVal rid)).resp =
            ledgerKeys st.resp ++ [u.id] := by
          simp [interpretResult, ledgerKeys, FlockwaveResponse.addReceipt, hup,
            List.map_append, List.append_assoc]
        rw [heq]
        exact nodup_append_singleton _ _ hnd hdisj
  | otherVal reason =>
      have hup : upsert st.resp.failure u.id reason =
          st.resp.failure ++ [(u.id, reason)] :=
        upsert_of_not_mem _ _ _ hd3.2.1
      constructor
      · intro x
        simp only [interpretResult, ledgerKeys, FlockwaveResponse.addFailure, hup,
          List.map_append, List.mem_append, List.mem_cons, List.mem_singleton,
          List.map_cons, List.map_nil]
        tauto
      · intro hnd
        have heq : ledgerKeys (interpretResult sender st u (Outcome.otherVal reason)).resp =
            (st.resp.success ++ st.resp.failure.map Prod.fst) ++
              u.id :: st.resp.receipt.map Prod.fst := by
          simp [interpretResult, ledgerKeys, FlockwaveResponse.addFailure, hup,
            List.map_append, List.append_assoc]
        rw [heq]
        apply nodup_insert_middle
        · simpa [ledgerKeys, List.append_assoc] using hnd
        · simpa [ledgerKeys, List.append_assoc, List.mem_append, not_or] using hdisj

theorem interpLoop_ledger (sender : String) (results : List (UAV × Outcome))
    (st : DispatchState) (hids : (results.map (fun p => p.1.id)).Nodup)
    (hdisj : ∀ p ∈ results, p.1.id ∉ ledgerKeys st.resp)
    (hnd : (ledgerKeys st.resp).Nodup) :
    (∀ x, x ∈ ledgerKeys (interpLoop sender results st).resp ↔
        x ∈ ledgerKeys st.resp ∨ ∃ p ∈ results, p.1.id = x) ∧
    (ledgerKeys (interpLoop sender results st).resp).Nodup := by
  induction results generalizing st with
  | nil => exact ⟨by simp [interpLoop], hnd⟩
  | cons hd rest ih =>
      obtain ⟨u, r⟩ := hd
      have hdu : u.id ∉ ledgerKeys st.resp := hdisj (u, r) (List.mem_cons_self _ _)
      have hstep := interpretResult_ledger sender st u r hdu
      simp only [List.map_cons, List.nodup_cons] at hids
      have hdisj1 : ∀ p ∈ rest, p.1.id ∉ ledgerKeys (interpretResult sender st u r).resp := by
        intro p hp hmem
        rcases (hstep.1 p.1.id).1 hmem with h | h
        · exact hdisj p (List.mem_cons_of_mem _ hp) h
        · exact hids.1 (h ▸ List.mem_map.2 ⟨p, hp, rfl⟩)
      have hrec := ih (interpretResult sender st u r) hids.2 hdisj1 (hstep.2 hnd)
      constructor
      · intro x
        rw [show interpLoop sender ((u, r) :: rest) st =
            interpLoop sender rest (interpretResult sender st u r) from rfl]
        rw [hrec.1 x]
        simp only [hstep.1 x, List.mem_cons]
        constructor
        · rintro ((h | h) | ⟨p, hp, he⟩)
          · exact Or.inl h
          · exact Or.inr ⟨(u, r), Or.inl rfl, h.symm⟩
          · exact Or.inr ⟨p, Or.inr hp, he⟩
        · rintro (h | ⟨p, hp | hp, he⟩)
          · exact Or.inl (Or.inl h)
          · subst hp
            exact Or.inl (Or.inr he.symm)
          · exact Or.inr ⟨p, hp, he⟩
      · exact hrec.2

theorem addFailures_ledger_mem (us : List UAV) (reason : String)
    (r : FlockwaveResponse String) (x : String) :
    x ∈ ledgerKeys (addFailures us reason r) ↔
      x ∈ ledgerKeys r ∨ ∃ u ∈ us, u.id = x := by
  have hkey := mem_keys_addFailures us reason r x
  constructor
  · intro h
    rcases List.mem_append.1 h with h1 | h1
    · rcases List.mem_append.1 h1 with h2 | h2
      · rw [addFailures_success] at h2
        exact Or.inl (List.mem_append.2 (Or.inl (List.mem_append.2 (Or.inl h2))))
      · rcases hkey.1 h2 with h3 | h3
        · exact Or.inl (List.mem_append.2 (Or.inl (List.mem_append.2 (Or.inr h3))))
        · exact Or.inr h3
    · rw [addFailures_receipt] at h1
      exact Or.inl (List.mem_append.2 (Or.inr h1))
  · intro h
    rcases h with h | h
    · rcases List.mem_append.1 h with h1 | h1
      · rcases List.mem_append.1 h1 with h2 | h2
        · refine List.mem_append.2 (Or.inl (List.mem_append.2 (Or.inl ?_)))
          rwa [addFailures_success]
        · exact List.mem_append.2 (Or.inl (List.mem_append.2 (Or.inr (hkey.2 (Or.inl h2)))))
      · refine List.mem_append.2 (Or.inr ?_)
        rwa [addFailures_receipt]
    · exact List.mem_append.2 (Or.inl (List.mem_append.2 (Or.inr (hkey.2 (Or.inr h)))))

theorem addFailures_ledger_nodup (us : List UAV) (reason : String)
    (r : FlockwaveResponse String) (hnd : (ledgerKeys r).Nodup)
    (hfr : ∀ u ∈ us, u.id ∉ r.success ∧ u.id ∉ r.receipt.map Prod.fst) :
    (ledgerKeys (addFailures us reason r)).Nodup := by
  induction us generalizing r with
  | nil => exact hnd
  | cons u rest ih =>
      unfold addFailures
      have hfru := hfr u (List.mem_cons_self _ _)
      refine ih _ ?_ ?_
      · by_cases hmem : u.id ∈ r.failure.map Prod.fst
        · have heq : ledgerKeys (r.addFailure u.id reason) = ledgerKeys r := by
            simp [ledgerKeys, FlockwaveResponse.addFailure,
              upsert_keys_of_mem _ _ _ hmem]
          rw [heq]
          exact hnd
        · have hup : upsert r.failure u.id reason = r.failure ++ [(u.id, reason)] :=
            upsert_of_not_mem _ _ _ hmem
          have heq : ledgerKeys (r.addFailure u.id reason) =
              (r.success ++ r.failure.map Prod.fst) ++ u.id :: r.receipt.map Prod.fst := by
            simp [ledgerKeys, FlockwaveResponse.addFailure, hup, List.map_append,
              List.append_assoc]
          rw [heq]
          apply nodup_insert_middle
          · simpa [ledgerKeys, List.append_assoc] using hnd
          · simp only [List.mem_append, not_or]
            exact ⟨⟨hfru.1, hmem⟩, hfru.2⟩
      · intro v hv
        simpa [FlockwaveResponse.addFailure] using hfr v (List.mem_cons_of_mem _ hv)

theorem processDriverGroup_ledger (env : DispatchEnv) (sender : String)
    (mname : Option String) (params : List (String × String)) (st : DispatchState)
    (d : String) (us : List UAV) (hok : groupOK env mname params d us)
    (hwf : ∀ u ∈ us, findU env u.id = some u)
    (hnd : (ledgerKeys st.resp).Nodup)
    (hdisj : ∀ u ∈ us, u.id ∉ ledgerKeys st.resp) :
    ∃ st1, processDriverGroup env sender mname params st d us = Except.ok st1 ∧
      (∀ x, x ∈ ledgerKeys st1.resp ↔ x ∈ ledgerKeys st.resp ∨ ∃ u ∈ us, u.id = x) ∧
      (ledgerKeys st1.resp).Nodup := by
  have hfr : ∀ u ∈ us, u.id ∉ st.resp.success ∧ u.id ∉ st.resp.receipt.map Prod.fst := by
    intro u hu
    have := hdisj u hu
    simp only [ledgerKeys, List.mem_append, not_or] at this
    exact ⟨this.1.1, this.2⟩
  unfold groupOK at hok
  unfold processDriverGroup
  cases hlk : lookupExcOf env mname d with
  | some e =>
      rw [hlk] at hok
      have hok2 : (e.isRuntimeError || e.isTypeError) = true := hok
      refine ⟨addGroupFailure st us "Operation not supported", ?_, ?_, ?_⟩
      · show (if (e.isRuntimeError || e.isTypeError) = true then
            Except.ok (addGroupFailure st us "Operation not supported")
          else Except.error e) =
            Except.ok (addGroupFailure st us "Operation not supported")
        rw [if_pos hok2]
      · intro x
        exact addFailures_ledger_mem us _ st.resp x
      · exact addFailures_ledger_nodup us _ st.resp hnd hfr
  | none =>
      rw [hlk] at hok
      cases hcall : (env.behavior d).call us params with
      | ok results =>
          rw [hcall] at hok
          have hok2 : (results.map Prod.fst).Nodup ∧
              (∀ u ∈ results.map Prod.fst, u ∈ us) ∧
              ∀ u ∈ us, u ∈ results.map Prod.fst := hok
          have hids : (results.map (fun p => p.1.id)).Nodup := by
            have hmm : results.map (fun p => p.1.id) = (results.map Prod.fst).map UAV.id := by
              simp [List.map_map]
            rw [hmm]
            refine List.Nodup.map_on ?_ hok2.1
            intro x hx y hy hxy
            have hfx := hwf x (hok2.2.1 x hx)
            have hfy := hwf y (hok2.2.1 y hy)
            rw [hxy] at hfx
            rw [hfx] at hfy
            exact Option.some.inj hfy
          have hdisjIds : ∀ p ∈ results, p.1.id ∉ ledgerKeys st.resp := by
            intro p hp
            exact hdisj p.1 (hok2.2.1 p.1 (List.mem_map.2 ⟨p, hp, rfl⟩))
          have hil := interpLoop_ledger sender results st hids hdisjIds hnd
          refine ⟨interpLoop sender results st, rfl, ?_, hil.2⟩
          intro x
          rw [hil.1 x]
          constructor
          · rintro (h | ⟨p, hp, he⟩)
            · exact Or.inl h
            · exact Or.inr ⟨p.1, hok2.2.1 p.1 (List.mem_map.2 ⟨p, hp, rfl⟩), he⟩
          · rintro (h | ⟨u, hu, he⟩)
            · exact Or.inl h
            · rcases List.mem_map.1 (hok2.2.2 u hu) with ⟨p, hp, hpe⟩
              exact Or.inr ⟨p, hp, by rw [hpe, he]⟩
      | error e =>
          rw [hcall] at hok
          cases e with
          | notImplementedError =>
              refine ⟨addGroupFailure st us "Operation not implemented", rfl, ?_, ?_⟩
              · intro x
                exact addFailures_ledger_mem us _ st.resp x
              · exact addFailures_ledger_nodup us _ st.resp hnd hfr
          | notSupportedError m =>
              refine ⟨addGroupFailure st us "Operation not supported", rfl, ?_, ?_⟩
              · intro x
                exact addFailures_ledger_mem us _ st.resp x
              · exact addFailures_ledger_nodup us _ st.resp hnd hfr
          | runtimeError m =>
              refine ⟨{ addGroupFailure st us ("Unexpected error: " ++ m) with
                log := st.log ++ [m] }, rfl, ?_, ?_⟩
              · intro x
                exact addFailures_ledger_mem us _ st.resp x
              · exact addFailures_ledger_nodup us _ st.resp hnd hfr
          | typeError m =>
              have hok2 : PyExc.isRuntimeError (PyExc.typeError m) = true := hok
              simp [PyExc.isRuntimeError] at hok2
          | otherError c m =>
              have hok2 : PyExc.isRuntimeError (PyExc.otherError c m) = true := hok
              simp [PyExc.isRuntimeError] at hok2

theorem processGroups_ledger (env : DispatchEnv) (sender : String)
    (mname : Option String) (params : List (String × String))
    (gs : List (String × List UAV)) (st : DispatchState)
    (hok : ∀ p ∈ gs, groupOK env mname params p.1 p.2)
    (hwf : ∀ p ∈ gs, ∀ u ∈ p.2, findU env u.id = some u)
    (hnd : (ledgerKeys st.resp).Nodup)
    (hdisj : ∀ p ∈ gs, ∀ u ∈ p.2, u.id ∉ ledgerKeys st.resp)
    (hpair : gs.Pairwise (fun p q => ∀ u ∈ p.2, ∀ v ∈ q.2, u.id ≠ v.id)) :
    ∃ st1, processGroups env sender mname params gs st = Except.ok st1 ∧
      (∀ x, x ∈ ledgerKeys st1.resp ↔
        x ∈ ledgerKeys st.resp ∨ ∃ u ∈ groupUAVs gs, u.id = x) ∧
      (ledgerKeys st1.resp).Nodup := by
  induction gs generalizing st with
  | nil => exact ⟨st, rfl, by simp [groupUAVs], hnd⟩
  | cons hd rest ih =>
      obtain ⟨d, us⟩ := hd
      rcases List.pairwise_cons.1 hpair with ⟨hphd, hprest⟩
      rcases processDriverGroup_ledger env sender mname params st d us
          (hok (d, us) (List.mem_cons_self _ _))
          (hwf (d, us) (List.mem_cons_self _ _)) hnd
          (hdisj (d, us) (List.mem_cons_self _ _)) with ⟨stA, heqA, hmemA, hndA⟩
      have hdisjA : ∀ p ∈ rest, ∀ v ∈ p.2, v.id ∉ ledgerKeys stA.resp := by
        intro p hp v hv hmem
        rcases (hmemA v.id).1 hmem with h | ⟨u, hu, he⟩
        · exact hdisj p (List.mem_cons_of_mem _ hp) v hv h
        · exact hphd p hp u hu v hv he
      rcases ih stA (fun p hp => hok p (List.mem_cons_of_mem _ hp))
          (fun p hp => hwf p (List.mem_cons_of_mem _ hp)) hndA hdisjA hprest with
        ⟨st1, heq1, hmem1, hnd1⟩
      refine ⟨st1, ?_, ?_, hnd1⟩
      · show (match processDriverGroup env sender mname params st d us with
          | Except.ok st1 => processGroups env sender mname params rest st1
          | Except.error e => Except.error e) = Except.ok st1
        rw [heqA]
        exact heq1
      · intro x
        rw [hmem1 x]
        simp only [hmemA x, groupUAVs, List.mem_append]
        constructor
        · rintro ((h | ⟨u, hu, he⟩) | ⟨u, hu, he⟩)
          · exact Or.inl h
          · exact Or.inr ⟨u, Or.inl hu, he⟩
          · exact Or.inr ⟨u, Or.inr hu, he⟩
        · rintro (h | ⟨u, hu | hu, he⟩)
          · exact Or.inl (Or.inl h)
          · exact Or.inl (Or.inr ⟨u, hu, he⟩)
          · exact Or.inr ⟨u, hu, he⟩

/-! ### Subscription manager lemmas for DEV-UNSUB -/

theorem unsubscribe_force_spec (subs : List Subscription) (c : String) (p : List String) :
    ∀ subs', unsubscribe subs c p true = Except.ok subs' →
      (∀ s ∈ subs', s ∈ subs) ∧
      ((subs.map fun s => (s.client, s.path)).Nodup →
        ((subs'.map fun s => (s.client, s.path)).Nodup ∧
          ∀ s ∈ subs', ¬(s.client = c ∧ s.path = p))) := by
  induction subs with
  | nil =>
      intro subs' h
      exact Except.noConfusion h
  | cons s0 rest ih =>
      intro subs' h
      by_cases hm : s0.client = c ∧ s0.path = p
      · have h2 : (Except.ok rest : Except SubError (List Subscription)) =
            Except.ok subs' := by
          rw [← h]
          simp [unsubscribe, hm]
        have hsub : subs' = rest := (Except.ok.inj h2).symm
        subst hsub
        refine ⟨fun s hs => List.mem_cons_of_mem _ hs, ?_⟩
        intro hwf
        simp only [List.map_cons, List.nodup_cons] at hwf
        refine ⟨hwf.2, ?_⟩
        intro s hs hsm
        apply hwf.1
        have : (s.client, s.path) = (s0.client, s0.path) := by
          rw [hsm.1, hsm.2, hm.1, hm.2]
        rw [← this]
        exact List.mem_map.2 ⟨s, hs, rfl⟩
      · have h2 : (match unsubscribe rest c p true with
            | Except.ok rest1 => Except.ok (s0 :: rest1)
            | Except.error e => Except.error (e : SubError)) = Except.ok subs' := by
          rw [← h]
          simp [unsubscribe, hm]
        cases hrec : unsubscribe rest c p true with
        | ok rest1 =>
            rw [hrec] at h2
            have hsub : subs' = s0 :: rest1 := (Except.ok.inj h2).symm
            subst hsub
            have hih := ih rest1 hrec
            constructor
            · intro s hs
              rcases List.mem_cons.1 hs with hs1 | hs1
              · exact hs1 ▸ List.mem_cons_self _ _
              · exact List.mem_cons_of_mem _ (hih.1 s hs1)
            · intro hwf
              simp only [List.map_cons, List.nodup_cons] at hwf
              have hih2 := hih.2 hwf.2
              constructor
              · simp only [List.map_cons, List.nodup_cons]
                refine ⟨?_, hih2.1⟩
                intro hmem
                rcases List.mem_map.1 hmem with ⟨s, hs, he⟩
                exact hwf.1 (he ▸ List.mem_map.2 ⟨s, hih.1 s hs, rfl⟩)
              · intro s hs hsm
                rcases List.mem_cons.1 hs with hs1 | hs1
                · exact hm (hs1 ▸ hsm)
                · exact hih2.2 s hs1 hsm
        | error e =>
            rw [hrec] at h2
            exact Except.noConfusion h2

theorem unsubscribe_error_no_match (subs : List Subscription) (c : String)
    (p : List String) (f : Bool) :
    ∀ e, unsubscribe subs c p f = Except.error e →
      ∀ s ∈ subs, ¬(s.client = c ∧ s.path = p) := by
  induction subs with
  | nil =>
      intro e h s hs
      cases hs
  | cons s0 rest ih =>
      intro e h s hs hsm
      by_cases hm : s0.client = c ∧ s0.path = p
      · have : unsubscribe (s0 :: rest) c p f =
            (if f then Except.ok rest
             else if s0.count ≤ 1 then Except.ok rest
             else Except.ok ({ s0 with count := s0.count - 1 } :: rest)) := by
          simp [unsubscribe, hm]
        rw [this] at h
        cases f with
        | true => exact Except.noConfusion h
        | false =>
            by_cases hc : s0.count ≤ 1
            · rw [if_neg (by simp), if_pos hc] at h
              exact Except.noConfusion h
            · rw [if_neg (by simp), if_neg hc] at h
              exact Except.noConfusion h
      · have h2 : (match unsubscribe rest c p f with
            | Except.ok rest1 => Except.ok (s0 :: rest1)
            | Except.error e => Except.error (e : SubError)) = Except.error e := by
          rw [← h]
          simp [unsubscribe, hm]
        cases hrec : unsubscribe rest c p f with
        | ok rest1 =>
            rw [hrec] at h2
            exact Except.noConfusion h2
        | error e2 =>
            rcases List.mem_cons.1 hs with hs1 | hs1
            · exact hm (hs1 ▸ hsm)
            · exact ih e2 hrec s hs1 hsm

theorem devUnsubGo_subset (client : String) (paths : List (List String))
    (acc : FlockwaveResponse (List String) × List Subscription) :
    ∀ s ∈ (devUnsubGo client true paths acc).2, s ∈ acc.2 := by
  induction paths generalizing acc with
  | nil => intro s hs; exact hs
  | cons p rest ih =>
      intro s hs
      unfold devUnsubGo at hs
      cases hrec : unsubscribe acc.2 client p true with
      | ok subs1 =>
          rw [hrec] at hs
          exact (unsubscribe_force_spec acc.2 client p subs1 hrec).1 s
            (ih (acc.1.addSuccess p, subs1) s hs)
      | error e =>
          rw [hrec] at hs
          cases e with
          | noSuchPath =>
              exact ih (acc.1.addFailure p "No such device tree path", acc.2) s hs
          | clientNotSubscribed =>
              exact ih (acc.1.addFailure p "Not subscribed to this path", acc.2) s hs

theorem devUnsubGo_removes (client : String) (paths : List (List String))
    (acc : FlockwaveResponse (List String) × List Subscription)
    (hwf : (acc.2.map fun s => (s.client, s.path)).Nodup) :
    ∀ p ∈ paths, ∀ s ∈ (devUnsubGo client true paths acc).2,
      ¬(s.client = client ∧ s.path = p) := by
  induction paths generalizing acc with
  | nil =>
      intro p hp
      cases hp
  | cons p0 rest ih =>
      intro p hp s hs hsm
      unfold devUnsubGo at hs
      cases hrec : unsubscribe acc.2 client p0 true with
      | ok subs1 =>
          rw [hrec] at hs
          have hspec := unsubscribe_force_spec acc.2 client p0 subs1 hrec
          have hwf1 := (hspec.2 hwf).1
          rcases List.mem_cons.1 hp with hp1 | hp1
          · subst hp1
            exact (hspec.2 hwf).2 s
              (devUnsubGo_subset client rest (acc.1.addSuccess p, subs1) s hs) hsm
          · exact ih (acc.1.addSuccess p0, subs1) hwf1 p hp1 s hs hsm
      | error e =>
          rw [hrec] at hs
          cases e with
          | noSuchPath =>
              rcases List.mem_cons.1 hp with hp1 | hp1
              · subst hp1
                exact unsubscribe_error_no_match acc.2 client p true
                  SubError.noSuchPath hrec s
                  (devUnsubGo_subset client rest
                    (acc.1.addFailure p "No such device tree path", acc.2) s hs) hsm
              · exact ih (acc.1.addFailure p0 "No such device tree path", acc.2)
                  hwf p hp1 s hs hsm
          | clientNotSubscribed =>
              rcases List.mem_cons.1 hp with hp1 | hp1
              · subst hp1
                exact unsubscribe_error_no_match acc.2 client p true
                  SubError.clientNotSubscribed hrec s
                  (devUnsubGo_subset client rest
                    (acc.1.addFailure p "Not subscribed to this path", acc.2) s hs) hsm
              · exact ih (acc.1.addFailure p0 "Not subscribed to this path", acc.2)
                  hwf p hp1 s hs hsm

theorem path_mem_expansion (subs : List Subscription) (client : String)
    (roots : List (List String)) (s : Subscription) (hs : s ∈ subs)
    (hc : s.client = client) (hr : ∃ r ∈ roots, pathUnder r s.path = true) :
    s.path ∈ (listSubscriptions subs client roots).map Prod.fst := by
  refine List.mem_map.2 ⟨(s.path, s.count), ?_, rfl⟩
  refine List.mem_filterMap.2 ⟨s, hs, ?_⟩
  rw [if_pos]
  constructor
  · exact hc
  · rcases hr with ⟨r, hrr, hru⟩
    exact List.any_eq_true.2 ⟨r, hrr, hru⟩

/-! ### Claim theorems -/

/-- Claim C3: when a batch of receipts times out in one sweep, exactly one
CMD-TIMEOUT message is produced for each client that occurs in the
clients_to_notify set of at least one timed-out receipt; the ids list of the
message for a client contains exactly the ids of the timed-out receipts
whose clients_to_notify contains that client; and a client occurring in no
clients_to_notify set receives no CMD-TIMEOUT message. -/
theorem cmd_timeout_one_message_per_client (statuses : List CommandExecutionStatus) :
    (∀ c, (∃ s ∈ statuses, c ∈ s.clientsToNotify) →
        (onCommandExecutionTimeout statuses).countP
          (fun m => decide (m.toClient = c)) = 1) ∧
    (∀ c, (∀ s ∈ statuses, c ∉ s.clientsToNotify) →
        (onCommandExecutionTimeout statuses).countP
          (fun m => decide (m.toClient = c)) = 0) ∧
    (∀ m, m ∈ onCommandExecutionTimeout statuses → ∀ rid,
        (rid ∈ m.ids ↔ ∃ s ∈ statuses, s.id = rid ∧ m.toClient ∈ s.clientsToNotify)) := by
  have hnd := nodup_keys_receiptIdsByClients statuses
  have hcount : ∀ c, (onCommandExecutionTimeout statuses).countP
      (fun m => decide (m.toClient = c)) =
      (receiptIdsByClients statuses).countP (fun p => decide (p.1 = c)) := by
    intro c
    unfold onCommandExecutionTimeout
    rw [List.countP_map]
    rfl
  have hkeys : ∀ c, c ∈ (receiptIdsByClients statuses).map Prod.fst ↔
      ∃ s ∈ statuses, c ∈ s.clientsToNotify := by
    intro c
    have := keys_receiptIdsByClients_aux statuses [] c
    simpa [receiptIdsByClients] using this
  refine ⟨?_, ?_, ?_⟩
  · intro c hc
    rw [hcount, countP_eq_one_of_nodup_keys _ _ hnd, if_pos ((hkeys c).2 hc)]
  · intro c hc
    rw [hcount, countP_eq_one_of_nodup_keys _ _ hnd, if_neg]
    intro hmem
    rcases (hkeys c).1 hmem with ⟨s, hs, hcs⟩
    exact hc s hs hcs
  · intro m hm rid
    rcases List.mem_map.1 hm with ⟨p, hp, he⟩
    have hids : m.ids = mmGet (receiptIdsByClients statuses) p.1 := by
      rw [← he]
      exact (mmGet_of_mem_nodup _ p.1 p.2 hp hnd).symm
    have hto : m.toClient = p.1 := by rw [← he]
    rw [hids, hto]
    have := mmGet_receiptIdsByClients_aux statuses [] p.1 rid
    simpa [receiptIdsByClients, mmGet] using this

/-- Witness for C3 on the spec scenario: receipts r1 and r2 notify client
c1, receipt r3 notifies client c2; exactly one message reaches c1 and none
reaches the uninvolved client c9. -/
theorem cmd_timeout_one_message_per_client_witness :
    (onCommandExecutionTimeout fixTimedOut).countP
      (fun m => decide (m.toClient = "c1")) = 1 ∧
    (onCommandExecutionTimeout fixTimedOut).countP
      (fun m => decide (m.toClient = "c9")) = 0 := by
  have h := cmd_timeout_one_message_per_client fixTimedOut
  refine ⟨h.1 "c1" ?_, h.2.1 "c9" ?_⟩
  · exact ⟨⟨"r1", ["c1"], false, .timedOut, none⟩, by decide, by decide⟩
  · decide

/-- Claim C4: when a receipt reaches the finished state, the handler
produces exactly one CMD-RESP send per client in its clients_to_notify set,
each carrying the receipt id and the response payload with the empty string
substituted for a missing payload, and no send targets a client outside
clients_to_notify. -/
theorem cmd_finished_one_message_per_client (status : CommandExecutionStatus)
    (hnd : status.clientsToNotify.Nodup) :
    (∀ c, (onCommandExecutionFinished status).countP (fun p => decide (p.1 = c)) =
        if c ∈ status.clientsToNotify then 1 else 0) ∧
    (∀ p, p ∈ onCommandExecutionFinished status →
        p.1 ∈ status.clientsToNotify ∧ p.2.id = status.id ∧
          p.2.response = (match status.response with | some r => r | none => "")) := by
  constructor
  · intro c
    unfold onCommandExecutionFinished
    rw [List.countP_map]
    have : ∀ (cs : List String), cs.Nodup →
        cs.countP (fun x => decide (x = c)) = if c ∈ cs then 1 else 0 := by
      intro cs
      induction cs with
      | nil => simp
      | cons hd tl ih =>
          intro hcs
          simp only [List.nodup_cons] at hcs
          by_cases hk : hd = c
          · subst hk
            simp [List.countP_cons, ih hcs.2, hcs.1]
          · have hck : ¬c = hd := fun h => hk h.symm
            by_cases hc : c ∈ tl <;>
              simp [List.countP_cons, hk, ih hcs.2, List.mem_cons, hck, hc]
    exact this status.clientsToNotify hnd
  · intro p hp
    unfold onCommandExecutionFinished at hp
    rcases List.mem_map.1 hp with ⟨c, hc, he⟩
    refine ⟨?_, ?_, ?_⟩ <;> simp [← he, hc]

/-- Claim C10: the response to a CMD-DEL request carries the body type
"CMD-INF" rather than "CMD-DEL"; every receipt id found in the command
execution manager is cancelled (a pending receipt ends up cancelled) and
recorded as a ledger success, and every receipt id not found is recorded as
a ledger failure with reason "No such receipt". -/
theorem cmd_del_body_type_and_outcomes (mgr0 : List CommandExecutionStatus)
    (receiptIds : List String) :
    (createCMDDELMessageFor mgr0 receiptIds).bodyType = "CMD-INF" ∧
    ∀ rid ∈ receiptIds,
      ((findReceipt mgr0 rid).isSome →
          rid ∈ (createCMDDELMessageFor mgr0 receiptIds).ledger.success ∧
          ((∀ s ∈ mgr0, s.id = rid → s.state = ReceiptState.pending) →
            ∀ s ∈ (createCMDDELMessageFor mgr0 receiptIds).mgr, s.id = rid →
              s.state = ReceiptState.cancelled)) ∧
      (findReceipt mgr0 rid = none →
          lookupA (createCMDDELMessageFor mgr0 receiptIds).ledger.failure rid =
            some "No such receipt") := by
  refine ⟨rfl, ?_⟩
  intro rid hrid
  have h := cmdDelGo_spec receiptIds (FlockwaveResponse.empty, mgr0) rid hrid
  refine ⟨?_, ?_⟩
  · intro hsome
    refine ⟨(h.1 hsome).1, ?_⟩
    intro hpend
    exact (h.1 hsome).2 (fun s hs hsid => Or.inl (hpend s hs hsid))
  · exact h.2

/-- Witness for C10: with one pending receipt r1, the CMD-DEL request for
r1 and the unknown id nope responds with body type CMD-INF, cancels r1 and
records it as a success, and records the "No such receipt" failure for
nope. -/
theorem cmd_del_body_type_and_outcomes_witness :
    (createCMDDELMessageFor [fixReceipt1] ["r1", "nope"]).bodyType = "CMD-INF" ∧
    "r1" ∈ (createCMDDELMessageFor [fixReceipt1] ["r1", "nope"]).ledger.success ∧
    (∀ s ∈ (createCMDDELMessageFor [fixReceipt1] ["r1", "nope"]).mgr, s.id = "r1" →
        s.state = ReceiptState.cancelled) ∧
    lookupA (createCMDDELMessageFor [fixReceipt1] ["r1", "nope"]).ledger.failure "nope" =
      some "No such receipt" := by
  have h := cmd_del_body_type_and_outcomes [fixReceipt1] ["r1", "nope"]
  have h1 := (h.2 "r1" (by decide)).1 (by decide)
  have h2 := (h.2 "nope" (by decide)).2 (by decide)
  exact ⟨h.1, h1.1, h1.2 (by decide), h2⟩

/-- Counterexample for C9: two broadcast requests for the same id issued in
immediate succession produce two outgoing UAV-INF messages, not the single
coalesced message the claim requires. -/
theorem uav_inf_two_requests_two_messages :
    (processUAVINFRequests fixEnvMixed [["v1"], ["v1"]]).length = 2 ∧
    (processUAVINFRequests fixEnvMixed [["v1"], ["v1"]]).length ≠ 1 := by
  constructor
  · rfl
  · intro h
    simp [processUAVINFRequests] at h

/-- Claim C9 (amended): `request_to_send_UAV_INF_message_for` performs no
coalescing: every request immediately produces exactly one outgoing UAV-INF
message (n requests produce n messages, whatever their timing or id
overlap), carrying the status of every registered requested UAV and a
"No such UAV" failure for every unknown requested id. -/
theorem uav_inf_requests_sent_immediately (env : DispatchEnv)
    (requests : List (List String)) :
    (processUAVINFRequests env requests).length = requests.length ∧
    ∀ ids ∈ requests, ∀ x ∈ ids,
      (∀ u, findU env x = some u →
          lookupA (requestToSendUAVINFMessageFor env ids).status x = some u.status) ∧
      (findU env x = none →
          lookupA (requestToSendUAVINFMessageFor env ids).failure x =
            some "No such UAV") := by
  constructor
  · exact List.length_map requests _
  · intro ids _ x hx
    constructor
    · intro u hu
      unfold requestToSendUAVINFMessageFor createUAVINFMessageFor
      rw [uavInfGo_status_lookup, if_pos ⟨hx, by rw [hu]; rfl⟩, hu]
      rfl
    · intro hn
      unfold requestToSendUAVINFMessageFor createUAVINFMessageFor
      rw [uavInfGo_failure_lookup, if_pos ⟨hx, hn⟩]

/-- Witness for C9 (amended): one request for a known and an unknown id
yields exactly one message with the status of v1 and a "No such UAV"
failure for zz. -/
theorem uav_inf_requests_sent_immediately_witness :
    (processUAVINFRequests fixEnvMixed [["v1", "zz"]]).length = 1 ∧
    lookupA (requestToSendUAVINFMessageFor fixEnvMixed ["v1", "zz"]).status "v1" =
      some "s1" ∧
    lookupA (requestToSendUAVINFMessageFor fixEnvMixed ["v1", "zz"]).failure "zz" =
      some "No such UAV" := by
  have h := uav_inf_requests_sent_immediately fixEnvMixed [["v1", "zz"]]
  have h1 := (h.2 ["v1", "zz"] (by decide) "v1" (by decide)).1 fixU1 (by decide)
  have h2 := (h.2 ["v1", "zz"] (by decide) "zz" (by decide)).2 (by decide)
  exact ⟨h.1, h1, h2⟩

/-- Claim C2: for every vehicle in a driver result mapping, the dispatcher
records `True` as a ledger success for the vehicle id; records a
`CommandExecutionStatus` receipt as a ledger receipt entry, adds the sender
to the clients_to_notify set of that receipt in the command execution
manager and marks the receipt as already acknowledged to the sender; and
records any other outcome value as a ledger failure with that value as the
reason. -/
theorem dispatch_outcome_interpretation (sender : String) (st : DispatchState) (u : UAV) :
    ((interpretResult sender st u Outcome.trueVal).resp.success =
        st.resp.success ++ [u.id] ∧
      (interpretResult sender st u Outcome.trueVal).resp.failure = st.resp.failure ∧
      (interpretResult sender st u Outcome.trueVal).resp.receipt = st.resp.receipt ∧
      (interpretResult sender st u Outcome.trueVal).mgr = st.mgr) ∧
    (∀ rid,
      lookupA (interpretResult sender st u (Outcome.receiptVal rid)).resp.receipt u.id =
          some rid ∧
      (interpretResult sender st u (Outcome.receiptVal rid)).resp.success =
        st.resp.success ∧
      (interpretResult sender st u (Outcome.receiptVal rid)).resp.failure =
        st.resp.failure ∧
      ∀ s ∈ st.mgr, s.id = rid →
        { s with clientsToNotify := pushClient s.clientsToNotify sender,
                 clientNotified := true } ∈
          (interpretResult sender st u (Outcome.receiptVal rid)).mgr) ∧
    (∀ reason,
      lookupA (interpretResult sender st u (Outcome.otherVal reason)).resp.failure u.id =
          some reason ∧
      (interpretResult sender st u (Outcome.otherVal reason)).mgr = st.mgr) := by
  refine ⟨⟨rfl, rfl, rfl, rfl⟩, ?_, ?_⟩
  · intro rid
    refine ⟨?_, rfl, rfl, ?_⟩
    · simp [interpretResult, FlockwaveResponse.addReceipt, lookupA_upsert]
    · intro s hs hsid
      refine List.mem_map.2
        ⟨{ s with clientsToNotify := pushClient s.clientsToNotify sender }, ?_, ?_⟩
      · exact List.mem_map.2 ⟨s, hs, by simp [hsid]⟩
      · simp [hsid]
  · intro reason
    exact ⟨by simp [interpretResult, FlockwaveResponse.addFailure, lookupA_upsert], rfl⟩

/-- Witness for C2 on the spec scenario: the driver of v1 and v2 answers
`True` for v1 and the receipt r1 for v2; v1 lands in the success list, v2
in the receipt map, and the managed receipt r1 gains the sender cl in its
notification set with the acknowledged flag set. -/
theorem dispatch_outcome_interpretation_witness :
    (interpretResult "cl" fixStR1 fixU1 Outcome.trueVal).resp.success = ["v1"] ∧
    lookupA (interpretResult "cl" fixStR1 fixU2 (Outcome.receiptVal "r1")).resp.receipt
      "v2" = some "r1" ∧
    (⟨"r1", ["cl"], true, ReceiptState.pending, none⟩ : CommandExecutionStatus) ∈
      (interpretResult "cl" fixStR1 fixU2 (Outcome.receiptVal "r1")).mgr ∧
    lookupA (interpretResult "cl" fixStR1 fixU1 (Outcome.otherVal "errmsg")).resp.failure
      "v1" = some "errmsg" := by
  have h1 := dispatch_outcome_interpretation "cl" fixStR1 fixU1
  have h2 := dispatch_outcome_interpretation "cl" fixStR1 fixU2
  refine ⟨by simpa using h1.1.1, (h2.2.1 "r1").1, ?_, (h1.2.2 "errmsg").1⟩
  exact (h2.2.1 "r1").2.2.2 fixReceipt1 (by decide) (by decide)

/-- Counterexample for C5: a driver raising `NotImplementedError` yields the
ledger failure reason "Operation not implemented", not the
"Operation not supported" the claim asserts for the not-implemented
condition. -/
theorem op_not_implemented_distinct_reason :
    (dispatchToUAVs fixEnvNotImpl [] fixMsg1 "cl").map
        (fun st => lookupA st.resp.failure "v1") =
      Except.ok (some "Operation not implemented") ∧
    (dispatchToUAVs fixEnvNotImpl [] fixMsg1 "cl").map
        (fun st => lookupA st.resp.failure "v1") ≠
      Except.ok (some "Operation not supported") := by
  constructor
  · rfl
  · intro h
    have h2 : (Except.ok (some "Operation not implemented") :
        Except PyExc (Option String)) = Except.ok (some "Operation not supported") := h
    exact absurd (Option.some.inj (Except.ok.inj h2)) (by decide)

/-- Claim C5 (amended): when the capability lookup raises an exception the
dispatcher catches, or the call raises `NotSupportedError`, every vehicle of
the group is recorded as a ledger failure with reason
"Operation not supported"; when the call raises `NotImplementedError` the
recorded reason is "Operation not implemented"; in all these cases the
group produces no exception, so processing continues with the remaining
driver groups. -/
theorem capability_unsupported_failures (env : DispatchEnv) (sender : String)
    (mname : Option String) (params : List (String × String)) (st : DispatchState)
    (d : String) (us : List UAV) :
    (((∃ e, lookupExcOf env mname d = some e ∧ (e.isRuntimeError || e.isTypeError) = true) ∨
        (lookupExcOf env mname d = none ∧
          ∃ m, (env.behavior d).call us params =
            Except.error (PyExc.notSupportedError m))) →
      processDriverGroup env sender mname params st d us =
        Except.ok (addGroupFailure st us "Operation not supported") ∧
      ∀ u ∈ us,
        lookupA (addGroupFailure st us "Operation not supported").resp.failure u.id =
          some "Operation not supported") ∧
    (lookupExcOf env mname d = none →
      (env.behavior d).call us params = Except.error PyExc.notImplementedError →
      processDriverGroup env sender mname params st d us =
        Except.ok (addGroupFailure st us "Operation not implemented") ∧
      ∀ u ∈ us,
        lookupA (addGroupFailure st us "Operation not implemented").resp.failure u.id =
          some "Operation not implemented") ∧
    (∀ rest st1, processDriverGroup env sender mname params st d us = Except.ok st1 →
      processGroups env sender mname params ((d, us) :: rest) st =
        processGroups env sender mname params rest st1) := by
  refine ⟨?_, ?_, ?_⟩
  · intro hcase
    have heq : processDriverGroup env sender mname params st d us =
        Except.ok (addGroupFailure st us "Operation not supported") := by
      rcases hcase with ⟨e, hlk, hcaught⟩ | ⟨hlk, m, hcall⟩
      · unfold processDriverGroup
        rw [hlk]
        show (if (e.isRuntimeError || e.isTypeError) = true then
            Except.ok (addGroupFailure st us "Operation not supported")
          else Except.error e) =
            Except.ok (addGroupFailure st us "Operation not supported")
        rw [if_pos hcaught]
      · unfold processDriverGroup
        rw [hlk, hcall]
    refine ⟨heq, ?_⟩
    intro u hu
    simp only [addGroupFailure, lookupA_addFailures]
    rw [if_pos (List.mem_map.2 ⟨u, hu, rfl⟩)]
  · intro hlk hcall
    constructor
    · unfold processDriverGroup
      rw [hlk, hcall]
    · intro u hu
      simp only [addGroupFailure, lookupA_addFailures]
      rw [if_pos (List.mem_map.2 ⟨u, hu, rfl⟩)]
  · intro rest st1 heq
    simp only [processGroups]
    rw [heq]

/-- Witness for C5 (amended): the driver of v1 raises
`NotImplementedError`; processing the group records the failure
"Operation not implemented" for v1 and hands an ordinary state to the rest
of the loop. -/
theorem capability_unsupported_failures_witness :
    processDriverGroup fixEnvNotImpl "cl" (methodNameFor "CMD-REQ") [] fixStEmpty "d1"
        [fixU1] =
      Except.ok (addGroupFailure fixStEmpty [fixU1] "Operation not implemented") ∧
    lookupA (addGroupFailure fixStEmpty [fixU1] "Operation not implemented").resp.failure
      "v1" = some "Operation not implemented" := by
  have h := capability_unsupported_failures fixEnvNotImpl "cl" (methodNameFor "CMD-REQ")
    [] fixStEmpty "d1" [fixU1]
  have h2 := h.2.1 rfl rfl
  exact ⟨h2.1, h2.2 fixU1 (by decide)⟩

/-- Counterexample for C6: a driver raising `ValueError`, an exception class
outside `RuntimeError`, is not caught by dispatch_to_uavs: the exception
propagates out of the dispatcher instead of being converted into ledger
failures. -/
theorem value_error_propagates :
    dispatchToUAVs fixEnvValueError [] fixMsg1 "cl" =
      Except.error (PyExc.otherError "ValueError" "boom") := by
  rfl

/-- Claim C6 (amended): a plain `RuntimeError` raised by a driver capability
call is caught and logged, and every vehicle of the group is recorded as a
ledger failure whose reason starts with "Unexpected error: "; exceptions
outside `RuntimeError` (such as `TypeError` or `ValueError`) propagate out
of the dispatcher. -/
theorem runtime_error_caught_and_logged (env : DispatchEnv) (sender : String)
    (mname : Option String) (params : List (String × String)) (st : DispatchState)
    (d : String) (us : List UAV) (hlk : lookupExcOf env mname d = none) :
    (∀ m, (env.behavior d).call us params = Except.error (PyExc.runtimeError m) →
      processDriverGroup env sender mname params st d us =
        Except.ok
          { addGroupFailure st us ("Unexpected error: " ++ m) with
            log := st.log ++ [m] } ∧
      ∀ u ∈ us,
        lookupA (addGroupFailure st us ("Unexpected error: " ++ m)).resp.failure u.id =
          some ("Unexpected error: " ++ m)) ∧
    (∀ m, (env.behavior d).call us params = Except.error (PyExc.typeError m) →
      processDriverGroup env sender mname params st d us =
        Except.error (PyExc.typeError m)) ∧
    (∀ c m, (env.behavior d).call us params = Except.error (PyExc.otherError c m) →
      processDriverGroup env sender mname params st d us =
        Except.error (PyExc.otherError c m)) := by
  refine ⟨?_, ?_, ?_⟩
  · intro m hcall
    constructor
    · unfold processDriverGroup
      rw [hlk, hcall]
    · intro u hu
      simp only [addGroupFailure, lookupA_addFailures]
      rw [if_pos (List.mem_map.2 ⟨u, hu, rfl⟩)]
  · intro m hcall
    unfold processDriverGroup
    rw [hlk, hcall]
  · intro c m hcall
    unfold processDriverGroup
    rw [hlk, hcall]

/-- Witness for C6 (amended): the driver of v1 raises a plain
`RuntimeError` with message boom; the group is converted into a ledger
failure "Unexpected error: boom" for v1 with the message logged, while the
same driver raising `ValueError` makes the dispatcher propagate. -/
theorem runtime_error_caught_and_logged_witness :
    (processDriverGroup fixEnvRuntime "cl" (methodNameFor "CMD-REQ") [] fixStEmpty "d1"
        [fixU1] =
      Except.ok
        { addGroupFailure fixStEmpty [fixU1] ("Unexpected error: " ++ "boom") with
          log := fixStEmpty.log ++ ["boom"] }) ∧
    lookupA
        (addGroupFailure fixStEmpty [fixU1] ("Unexpected error: " ++ "boom")).resp.failure
      "v1" = some ("Unexpected error: " ++ "boom") := by
  have h := runtime_error_caught_and_logged fixEnvRuntime "cl" (methodNameFor "CMD-REQ")
    [] fixStEmpty "d1" [fixU1] rfl
  have h2 := h.1 "boom" rfl
  exact ⟨h2.1, h2.2 fixU1 (by decide)⟩

/-- Claim C7: every requested target id that does not resolve in the UAV
registry is recorded as a ledger failure with reason "No such UAV" and is
excluded from every driver group (hence from every driver capability
invocation, which receives exactly the grouped vehicles); the failure of
one id never aborts the sibling ids: every resolvable requested id still
lands in the group of its driver. -/
theorem unresolved_ids_failed_and_excluded (env : DispatchEnv) (ids : List String) :
    ∀ x ∈ ids,
      (findU env x = none →
          lookupA (sortUAVsByDrivers env ids FlockwaveResponse.empty).2.failure x =
            some "No such UAV" ∧
          ∀ p ∈ (sortUAVsByDrivers env ids FlockwaveResponse.empty).1, ∀ u ∈ p.2,
            u.id ≠ x) ∧
      (∀ u, findU env x = some u →
          ∃ us, (u.driver, us) ∈ (sortUAVsByDrivers env ids FlockwaveResponse.empty).1 ∧
            u ∈ us) := by
  intro x hx
  constructor
  · intro hn
    constructor
    · unfold sortUAVsByDrivers
      rw [sortGo_failure_lookup, if_pos ⟨hx, hn⟩]
    · intro p hp u hu hid
      have hwf := sortGo_groups_pointwise env ids [] FlockwaveResponse.empty
        (fun _ v => findU env v.id = some v)
        (by intro q hq; cases hq)
        (fun i v hf => by
          show findU env v.id = some v
          rw [findU_id env i v hf]
          exact hf)
      have hres : findU env u.id = some u := hwf p hp u hu
      rw [hid, hn] at hres
      exact Option.noConfusion hres
  · intro u hu
    apply groupUAVs_mem_exists
    · exact sortGo_groups_pointwise env ids [] FlockwaveResponse.empty
        (fun d v => v.driver = d)
        (by intro q hq; cases hq)
        (fun i v _ => rfl)
    · exact (sortGo_mem_groups env ids [] FlockwaveResponse.empty u).2
        (Or.inr ⟨x, hx, hu⟩)

/-- Witness for C7: with ids v1 and the unknown zz, zz is recorded as a
"No such UAV" failure and kept out of the groups, while v1 still reaches
the group of its driver d1. -/
theorem unresolved_ids_failed_and_excluded_witness :
    lookupA (sortUAVsByDrivers fixEnvMixed ["v1", "zz"]
        FlockwaveResponse.empty).2.failure "zz" = some "No such UAV" ∧
    (∀ p ∈ (sortUAVsByDrivers fixEnvMixed ["v1", "zz"] FlockwaveResponse.empty).1,
        ∀ u ∈ p.2, u.id ≠ "zz") ∧
    ∃ us, ("d1", us) ∈ (sortUAVsByDrivers fixEnvMixed ["v1", "zz"]
        FlockwaveResponse.empty).1 ∧ fixU1 ∈ us := by
  have h := unresolved_ids_failed_and_excluded fixEnvMixed ["v1", "zz"]
  have h1 := (h "zz" (by decide)).1 rfl
  have h2 := (h "v1" (by decide)).2 fixU1 rfl
  exact ⟨h1.1, h1.2, h2⟩

/-- Claim C1: for every dispatch whose message body carries an id list,
assuming each driver capability lookup and call either returns one outcome
per vehicle passed to it or raises an exception the dispatcher catches, the
response ledger assigns exactly one outcome to every requested id: the
concatenation of the success list and the failure and receipt key lists has
no duplicates, and its members are exactly the requested ids. -/
theorem dispatch_ledger_complete (env : DispatchEnv) (mgr0 : List CommandExecutionStatus)
    (msg : FlockwaveMessage) (sender : String)
    (hok : ∀ p ∈ (sortUAVsByDrivers env msg.ids FlockwaveResponse.empty).1,
        groupOK env (methodNameFor msg.msgType) msg.params p.1 p.2) :
    ∃ st, dispatchToUAVs env mgr0 msg sender = Except.ok st ∧
      (ledgerKeys st.resp).Nodup ∧
      ∀ x, x ∈ ledgerKeys st.resp ↔ x ∈ msg.ids := by
  have hwfF : ∀ p ∈ (sortGo env msg.ids ([], FlockwaveResponse.empty)).1,
      ∀ u ∈ p.2, findU env u.id = some u :=
    sortGo_groups_pointwise env msg.ids [] FlockwaveResponse.empty
      (fun _ v => findU env v.id = some v)
      (by intro q hq; cases hq)
      (fun i v hf => by
        show findU env v.id = some v
        rw [findU_id env i v hf]
        exact hf)
  have hwfD : ∀ p ∈ (sortGo env msg.ids ([], FlockwaveResponse.empty)).1,
      ∀ u ∈ p.2, u.driver = p.1 :=
    sortGo_groups_pointwise env msg.ids [] FlockwaveResponse.empty
      (fun d v => v.driver = d)
      (by intro q hq; cases hq)
      (fun i v _ => rfl)
  have hknd := sortGo_keys_nodup env msg.ids [] FlockwaveResponse.empty (by simp)
  have hpair : (sortGo env msg.ids ([], FlockwaveResponse.empty)).1.Pairwise
      (fun p q => ∀ u ∈ p.2, ∀ v ∈ q.2, u.id ≠ v.id) := by
    have hne0 : ((sortGo env msg.ids ([], FlockwaveResponse.empty)).1.map
        Prod.fst).Pairwise (fun a b => a ≠ b) := hknd
    rw [List.pairwise_map] at hne0
    refine hne0.imp_of_mem ?_
    intro p q hp hq hne u hu v hv he
    have h1 := hwfF p hp u hu
    have h2 := hwfF q hq v hv
    rw [he] at h1
    have huv : u = v := Option.some.inj (h1.symm.trans h2)
    have hd1 := hwfD p hp u hu
    have hd2 := hwfD q hq v hv
    exact hne (by rw [← hd1, huv, hd2])
  have hsuc : (sortGo env msg.ids ([], FlockwaveResponse.empty)).2.success = [] :=
    sortGo_success env msg.ids [] FlockwaveResponse.empty
  have hrec : (sortGo env msg.ids ([], FlockwaveResponse.empty)).2.receipt = [] :=
    sortGo_receipt env msg.ids [] FlockwaveResponse.empty
  have hmemBase : ∀ x, x ∈ ledgerKeys (sortGo env msg.ids ([], FlockwaveResponse.empty)).2 ↔
      (x ∈ msg.ids ∧ findU env x = none) := by
    intro x
    have hfl := sortGo_failure_lookup env msg.ids [] FlockwaveResponse.empty x
    have hmem : x ∈ ledgerKeys (sortGo env msg.ids ([], FlockwaveResponse.empty)).2 ↔
        x ∈ ((sortGo env msg.ids ([], FlockwaveResponse.empty)).2.failure.map
          Prod.fst) := by
      simp [ledgerKeys, hsuc, hrec]
    rw [hmem]
    constructor
    · intro h
      by_cases hc : x ∈ msg.ids ∧ findU env x = none
      · exact hc
      · exfalso
        rw [if_neg hc] at hfl
        have : lookupA ((sortGo env msg.ids ([], FlockwaveResponse.empty)).2.failure) x =
            none := hfl
        exact absurd h ((lookupA_eq_none_iff _ _).1 this)
    · intro hc
      rw [if_pos hc] at hfl
      by_contra hnm
      rw [(lookupA_eq_none_iff _ _).2 hnm] at hfl
      exact Option.noConfusion hfl
  have hndBase : (ledgerKeys (sortGo env msg.ids ([], FlockwaveResponse.empty)).2).Nodup := by
    have hfnd := sortGo_failure_nodup env msg.ids [] FlockwaveResponse.empty
      (by simp [FlockwaveResponse.empty])
    simpa [ledgerKeys, hsuc, hrec] using hfnd
  have hdisjBase : ∀ p ∈ (sortGo env msg.ids ([], FlockwaveResponse.empty)).1,
      ∀ u ∈ p.2, u.id ∉ ledgerKeys (sortGo env msg.ids ([], FlockwaveResponse.empty)).2 := by
    intro p hp u hu hmem
    have hf := hwfF p hp u hu
    rcases (hmemBase u.id).1 hmem with ⟨_, hnone⟩
    rw [hf] at hnone
    exact Option.noConfusion hnone
  rcases processGroups_ledger env sender (methodNameFor msg.msgType) msg.params
      (sortGo env msg.ids ([], FlockwaveResponse.empty)).1
      ⟨(sortGo env msg.ids ([], FlockwaveResponse.empty)).2, mgr0, []⟩
      hok hwfF hndBase hdisjBase hpair with ⟨st1, heq, hmem, hnd⟩
  refine ⟨st1, heq, hnd, ?_⟩
  intro x
  rw [hmem x]
  have hgrp : (∃ u ∈ groupUAVs (sortGo env msg.ids ([], FlockwaveResponse.empty)).1,
      u.id = x) ↔ (x ∈ msg.ids ∧ (findU env x).isSome) := by
    constructor
    · rintro ⟨u, hu, he⟩
      rcases (sortGo_mem_groups env msg.ids [] FlockwaveResponse.empty u).1 hu with
        h | ⟨i, hi, hf⟩
      · simp [groupUAVs] at h
      · have hid := findU_id env i u hf
        constructor
        · rw [← he, hid]
          exact hi
        · rw [← he, hid, hf]
          rfl
    · rintro ⟨hx, hsome⟩
      rcases Option.isSome_iff_exists.1 hsome with ⟨u, hf⟩
      exact ⟨u, (sortGo_mem_groups env msg.ids [] FlockwaveResponse.empty u).2
        (Or.inr ⟨x, hx, hf⟩), findU_id env x u hf⟩
  constructor
  · rintro (h | h)
    · exact ((hmemBase x).1 h).1
    · exact (hgrp.1 h).1
  · intro hx
    cases hfd : findU env x with
    | some u =>
        refine Or.inr (hgrp.2 ⟨hx, ?_⟩)
        rw [hfd]
        rfl
    | none => exact Or.inl ((hmemBase x).2 ⟨hx, hfd⟩)

/-- Witness for C1: the dispatch of the CMD-REQ fixture to ids v1, v2, v3
and the unknown zz, with driver d1 answering per vehicle and driver d2
raising `NotSupportedError`, yields a ledger whose keys are exactly the
four requested ids, each with one outcome. -/
theorem dispatch_ledger_complete_witness :
    ∃ st, dispatchToUAVs fixEnvMixed [fixReceipt1] fixMsg "cl" = Except.ok st ∧
      (ledgerKeys st.resp).Nodup ∧
      ∀ x, x ∈ ledgerKeys st.resp ↔ x ∈ fixMsg.ids :=
  dispatch_ledger_complete fixEnvMixed [fixReceipt1] fixMsg "cl" (by decide)

/-- Counterexample for C8: client c subscribed twice to /A/b/c; a DEV-UNSUB
for /A with include_subtrees true but removeAll false (the default) expands
to the distinct path /A/b/c and decrements its count only once, so one
subscription below /A remains, not zero as the claim asserts. -/
theorem dev_unsub_subtree_multi_subscription_remains :
    clientSubCountUnder (createDEVUNSUBMessageFor fixSubs "c" [["A"]] false true).2
      "c" ["A"] = 1 ∧
    clientSubCountUnder (createDEVUNSUBMessageFor fixSubs "c" [["A"]] false true).2
      "c" ["A"] ≠ 0 := by
  constructor
  · rfl
  · decide

/-- Claim C8 (amended): a DEV-UNSUB request for path p with include_subtrees
true first expands p to the distinct paths of the client subscriptions at or
under p and unsubscribes each of them once with force equal to removeAll;
when removeAll is true the client afterwards holds zero subscriptions at or
below p; when removeAll is false each such path loses only one subscription
count, so a multiply-subscribed path keeps its remaining counts. -/
theorem dev_unsub_subtrees_removeall_clears (subs : List Subscription) (client : String)
    (roots : List (List String)) (root : List String)
    (hwf : (subs.map fun s => (s.client, s.path)).Nodup) (hr : root ∈ roots) :
    clientSubCountUnder (createDEVUNSUBMessageFor subs client roots true true).2
      client root = 0 := by
  have hnone : ∀ s ∈ (createDEVUNSUBMessageFor subs client roots true true).2,
      (if s.client = client ∧ pathUnder root s.path then some s.count else none) =
        none := by
    intro s hs
    have hs2 : s ∈ (devUnsubGo client true
        ((listSubscriptions subs client roots).map Prod.fst)
        (FlockwaveResponse.empty, subs)).2 := hs
    have hsub := devUnsubGo_subset client
      ((listSubscriptions subs client roots).map Prod.fst)
      (FlockwaveResponse.empty, subs) s hs2
    rw [if_neg]
    rintro ⟨hc, hu⟩
    have hexp : s.path ∈ (listSubscriptions subs client roots).map Prod.fst :=
      path_mem_expansion subs client roots s hsub hc ⟨root, hr, hu⟩
    exact devUnsubGo_removes client
      ((listSubscriptions subs client roots).map Prod.fst)
      (FlockwaveResponse.empty, subs) hwf s.path hexp s hs2 ⟨hc, rfl⟩
  unfold clientSubCountUnder
  rw [List.filterMap_eq_nil_iff.2 hnone]
  rfl

/-- Witness for C8 (amended): the doubly subscribed path /A/b/c is fully
removed once removeAll is set: the client ends with zero subscriptions at
or below /A. -/
theorem dev_unsub_subtrees_removeall_clears_witness :
    clientSubCountUnder (createDEVUNSUBMessageFor fixSubs "c" [["A"]] true true).2
      "c" ["A"] = 0 :=
  dev_unsub_subtrees_removeall_clears fixSubs "c" [["A"]] ["A"] (by decide) (by decide)

/-- Witness for C4: the finished receipt r9 with clients c1 and c2 and no
stored payload produces exactly one send for c1, none for the uninvolved
client c9, and the send carries the empty response string. -/
theorem cmd_finished_one_message_per_client_witness :
    ((onCommandExecutionFinished fixFinished).countP
        (fun p => decide (p.1 = "c1")) = if "c1" ∈ fixFinished.clientsToNotify then 1 else 0) ∧
    ((onCommandExecutionFinished fixFinished).countP
        (fun p => decide (p.1 = "c9")) = if "c9" ∈ fixFinished.clientsToNotify then 1 else 0) ∧
    ("c1", ({ id := "r9", response := "" } : CMDRESPMessage)) ∈
      onCommandExecutionFinished fixFinished := by
  have h := cmd_finished_one_message_per_client fixFinished (by decide)
  exact ⟨h.1 "c1", h.1 "c9", by decide⟩

end Flockwave
